import Mathlib

/-!
Verification development for the BULC-D headless GEE runner (`runner11.js`).

The source is a single Node.js script.  The parts the claims are about are
shallow-embedded here:

* `validateSidecar` (source lines 256-332): a pure function over JSON-style
  values, translated directly.
* `geeRequire` (source lines 450-511): the GEE module resolver.  File-system
  reads (`fs.existsSync` / `fs.readFileSync`) are modelled as lookups in an
  association list, and the execution of a module's JavaScript text
  (`vm.runInContext`) is abstracted to a `ModuleBehavior`: the module either
  throws during its own top-level execution or populates an exported value.
* `reconstructGeometries` (source lines 522-554): modelled over an explicit
  heap of objects so that reference identity (aliasing) is expressible.
* `runExperiment` / `runBatch` (source lines 673-867): the orchestration
  skeleton; the remote Earth-Engine calls are abstracted to boolean outcomes
  supplied by an environment record, and the module cache threading of the
  batch loop is kept explicit.
-/

namespace BulcdRunner

/-- JavaScript values as reachable from `JSON.parse` plus `undefined`.
Numbers are modelled as exact rationals (JSON numbers are decimal literals;
IEEE-754 rounding is not modelled, no claim depends on it). -/
inductive JVal where
  | undefined : JVal
  | null : JVal
  | bool (b : Bool) : JVal
  | num (q : ℚ) : JVal
  | str (s : String) : JVal
  | arr (elems : List JVal) : JVal
  | obj (fields : List (String × JVal)) : JVal
deriving Repr, Inhabited

/-- First-match association-list lookup (JS object property lookup; keys of a
parsed JSON object are unique). -/
def assocFind {κ α : Type} [DecidableEq κ] (k : κ) : List (κ × α) → Option α
  | [] => none
  | p :: rest => if k = p.1 then some p.2 else assocFind k rest

/-- JS property access `v[k]` on a *non-nullish* receiver: `undefined` on
missing keys and on primitive receivers (which JS boxes).  On a `null` or
`undefined` receiver, real JS throws a `TypeError`; every such access in
`validateSidecar` is behind a truthiness guard *except* the top-level
`data[section]` of source line 262, whose throw on a nullish bundle is
modelled separately by `validateSidecarJS` — this total function models
only the non-throwing reads. -/
def JVal.get : JVal → String → JVal
  | .obj fields, k => (assocFind k fields).getD .undefined
  | _, _ => .undefined

/-- JS truthiness.  (`NaN` is not representable in `ℚ` and not reachable from
JSON, so `num` is falsy exactly at `0`.) -/
def JVal.truthy : JVal → Bool
  | .undefined => false
  | .null => false
  | .bool b => b
  | .num q => decide (q ≠ 0)
  | .str s => decide (s ≠ "")
  | .arr _ => true
  | .obj _ => true

/-- JS strict comparison `=== undefined`. -/
def JVal.isUndefined : JVal → Bool
  | .undefined => true
  | _ => false

/-- JS `Array.isArray`. -/
def JVal.isArray : JVal → Bool
  | .arr _ => true
  | _ => false

/-- JS strict comparison `=== true`. -/
def JVal.isTrue : JVal → Bool
  | .bool true => true
  | _ => false

/-- Accumulate a decimal digit run: value, digit count, remainder. -/
def takeDigitsAux (acc : Nat) (n : Nat) : List Char → Nat × Nat × List Char
  | [] => (acc, n, [])
  | c :: cs =>
    if '0' ≤ c ∧ c ≤ '9' then takeDigitsAux (acc * 10 + (c.toNat - '0'.toNat)) (n + 1) cs
    else (acc, n, c :: cs)

/-- JS whitespace characters relevant to `ToNumber` trimming. -/
def isJsWs (c : Char) : Bool :=
  c = ' ' ∨ c = '\t' ∨ c = '\n' ∨ c = '\r'

/-- Optional sign; returns whether negative and the remainder. -/
def takeSign : List Char → Bool × List Char
  | '-' :: cs => (true, cs)
  | '+' :: cs => (false, cs)
  | cs => (false, cs)

/-- JS `ToNumber` on a string, for the decimal-literal fragment
`[ws] [sign] (digits [. digits] | . digits) [(e|E) [sign] digits] [ws]`;
`none` models `NaN`.  (`Infinity`, hex/octal/binary literals are modelled as
`NaN`; no claim touches them.) -/
def jsStrToNum (s : List Char) : Option ℚ :=
  let t := (s.dropWhile isJsWs).reverse.dropWhile isJsWs |>.reverse
  if t = [] then some 0
  else
    let (neg, t1) := takeSign t
    let (ipart, icnt, t2) := takeDigitsAux 0 0 t1
    let (fpart, fcnt, t3) :=
      match t2 with
      | '.' :: rest => takeDigitsAux 0 0 rest
      | _ => (0, 0, t2)
    if icnt = 0 ∧ fcnt = 0 then none
    else
      let core : ℚ := (ipart : ℚ) + (fpart : ℚ) / ((10 : ℚ) ^ fcnt)
      let signed : ℚ := if neg then -core else core
      match t3 with
      | [] => some signed
      | c :: rest =>
        if c = 'e' ∨ c = 'E' then
          let (eneg, r1) := takeSign rest
          let (ev, ec, r2) := takeDigitsAux 0 0 r1
          if ec = 0 ∨ r2 ≠ [] then none
          else some (if eneg then signed / ((10 : ℚ) ^ ev) else signed * ((10 : ℚ) ^ ev))
        else none

/-- JS `ToNumber` on the values reachable from JSON (plus `undefined`);
`none` models `NaN`.  Single-element arrays coerce through their string
rendering; the nested-array corner is conservatively `NaN` (unclaimed). -/
def jsToNumber : JVal → Option ℚ
  | .num q => some q
  | .null => some 0
  | .bool b => some (if b then 1 else 0)
  | .undefined => none
  | .str s => jsStrToNum s.data
  | .arr [] => some 0
  | .arr [.num q] => some q
  | .arr [.str s] => jsStrToNum s.data
  | .arr [.null] => some 0
  | .arr _ => none
  | .obj _ => none

/-- JS abstract relational comparison `a < b`: lexicographic when both sides
are strings, otherwise numeric with `NaN` making the comparison false. -/
def jsLt (a b : JVal) : Bool :=
  match a, b with
  | .str s1, .str s2 => decide (s1 < s2)
  | _, _ =>
    match jsToNumber a, jsToNumber b with
    | some x, some y => decide (x < y)
    | _, _ => false

/-- Decimal exponent form of a rational: `q = m / 10^k` with `k` minimal
(exists whenever the reduced denominator divides a power of ten). -/
def decExp (q : ℚ) : Option (Int × Nat) :=
  (List.range 40).findSome? fun k =>
    if (q * (10 : ℚ) ^ k).den = 1 then some ((q * (10 : ℚ) ^ k).num, k) else none

/-- Render `n / 10^k` (n ≥ 0) as a decimal numeral. -/
def renderDec (n : Nat) (k : Nat) : String :=
  if k = 0 then toString n
  else
    let s := toString n
    if s.length ≤ k then "0." ++ String.mk (List.replicate (k - s.length) '0') ++ s
    else s.extract 0 ⟨s.length - k⟩ ++ "." ++ s.extract ⟨s.length - k⟩ ⟨s.length⟩

/-- JS number-to-string for terminating decimals; other rationals fall back
to a fraction rendering (not reachable from JSON decimal literals). -/
def qToJsString (q : ℚ) : String :=
  match decExp q with
  | some (m, k) => if m < 0 then "-" ++ renderDec m.natAbs k else renderDec m.natAbs k
  | none => toString q.num ++ "/" ++ toString q.den

mutual

/-- JS `ToString` as used by template literals, for JSON-reachable values. -/
def jsToDisplayString : JVal → String
  | .undefined => "undefined"
  | .null => "null"
  | .bool b => if b then "true" else "false"
  | .num q => qToJsString q
  | .str s => s
  | .arr xs => String.intercalate "," (jsDisplayList xs)
  | .obj _ => "[object Object]"

/-- Array elements joined by `,`; `null`/`undefined` elements render empty. -/
def jsDisplayList : List JVal → List String
  | [] => []
  | .null :: xs => "" :: jsDisplayList xs
  | .undefined :: xs => "" :: jsDisplayList xs
  | x :: xs => jsToDisplayString x :: jsDisplayList xs

end

/-- Source lines 261: the three top-level sections, in checking order. -/
def SECTION_NAMES : List String :=
  ["inputParameters", "analysisParameters", "advancedParameters"]

/-- Source lines 235-252: `REQUIRED_KEYS`. -/
def REQUIRED_KEYS : String → List String
  | "inputParameters" =>
    ["whichReduction", "bandName_reduction", "bandNameToFit", "binCuts", "modalityDictionary"]
  | "analysisParameters" =>
    ["changeThreshold", "dropThresholdToDenoteChange", "gainThresholdToDenoteChange"]
  | "advancedParameters" =>
    ["initializationApproach", "transitionCreationMethod"]
  | _ => []

/-- The (section, key) pairs of the §6 required-key table. -/
def REQUIRED_PAIRS : List (String × String) :=
  SECTION_NAMES.flatMap fun sec => (REQUIRED_KEYS sec).map fun k => (sec, k)

/-- Source line 254: `MODALITY_KEYS`. -/
def MODALITY_KEYS : List String := ["bimodal", "constant", "linear", "trimodal", "unimodal"]

/-- Source line 300: the five sensor dictionary keys. -/
def SENSOR_KEYS : List String :=
  ["L5dictionary", "L7dictionary", "L8dictionary", "S2dictionary", "S1dictionary"]

/-- Source line 262 error template. -/
def missingSectionMsg (sec : String) : String := "Missing required section: " ++ sec

/-- Source line 270 error template. -/
def missingKeyMsg (sec key : String) : String := "Missing key in " ++ sec ++ ": " ++ key

/-- Source line 281 error text. -/
def binCutsErrorMsg : String := "inputParameters.binCuts must be an array"

/-- The result shape `{ errors, warnings, isValid }` of source line 331. -/
structure ValidationResult where
  errors : List String
  warnings : List String
  isValid : Bool
deriving Repr, DecidableEq

/-- `validateSidecar` (source lines 256-332), translated clause by clause,
on the inputs where the source returns normally (every non-nullish `data`;
the nullish throw path is `validateSidecarJS` below).  The JS function
pushes onto `errors` / `warnings` in a single pass; the translation
concatenates the per-clause contributions in the same order.  The
`filePath` parameter of the source is unused there and omitted here. -/
def validateSidecar (data : JVal) : ValidationResult :=
  let sectionErrors := SECTION_NAMES.flatMap fun sec =>
    if ¬ (data.get sec).truthy then [missingSectionMsg sec]
    else (REQUIRED_KEYS sec).filterMap fun key =>
      if ((data.get sec).get key).isUndefined then some (missingKeyMsg sec key) else none
  let ip := data.get "inputParameters"
  let binCutsErrors :=
    if ip.truthy ∧ (ip.get "binCuts").truthy ∧ ¬ (ip.get "binCuts").isArray then
      [binCutsErrorMsg]
    else []
  let modalityWarnings :=
    if ip.truthy ∧ (ip.get "modalityDictionary").truthy then
      (MODALITY_KEYS.filterMap fun key =>
        if ((ip.get "modalityDictionary").get key).isUndefined then
          some ("modalityDictionary missing key: " ++ key)
        else none) ++
      (if ¬ MODALITY_KEYS.any (fun k => ((ip.get "modalityDictionary").get k).isTrue) then
        ["No modality is set to true in modalityDictionary"]
      else [])
    else []
  let sensorWarnings :=
    if ip.truthy then
      SENSOR_KEYS.flatMap fun sensor =>
        if (ip.get sensor).truthy then
          (if ¬ ((ip.get sensor).get "yearsList").truthy ∨
              ¬ ((ip.get sensor).get "yearsList").isArray then
            [sensor ++ ".yearsList should be an array"]
          else []) ++
          (if ((ip.get sensor).get "firstDOY").isUndefined then
            [sensor ++ ".firstDOY not specified"]
          else []) ++
          (if ((ip.get sensor).get "lastDOY").isUndefined then
            [sensor ++ ".lastDOY not specified"]
          else [])
        else []
    else []
  let ap := data.get "analysisParameters"
  let analysisWarnings :=
    if ap.truthy then
      (if ¬ (ap.get "changeThreshold").isUndefined ∧
          (jsLt (ap.get "changeThreshold") (.num 0) ∨ jsLt (.num 1) (ap.get "changeThreshold")) then
        ["changeThreshold (" ++ jsToDisplayString (ap.get "changeThreshold") ++
          ") is outside typical range [0, 1]"]
      else []) ++
      (if ¬ (ap.get "dropThresholdToDenoteChange").isUndefined ∧
          ¬ (ap.get "gainThresholdToDenoteChange").isUndefined ∧
          jsLt (ap.get "dropThresholdToDenoteChange") (ap.get "gainThresholdToDenoteChange") then
        ["dropThreshold < gainThreshold - this may produce unexpected results"]
      else [])
    else []
  let errors := sectionErrors ++ binCutsErrors
  let warnings := modalityWarnings ++ sensorWarnings ++ analysisWarnings
  { errors := errors, warnings := warnings, isValid := errors.length == 0 }

/-- `validateSidecar` as the source actually executes it: the unguarded
property access `data[section]` at source line 262 throws a `TypeError`
when `data` is `null` (reachable from `JSON.parse` of a sidecar file
containing the literal `null`) or `undefined`; on every other receiver all
property accesses in the function are total (JS boxes primitives) and the
function returns its result.  The message abbreviates the V8 text, quote
marks around the property name omitted. -/
def validateSidecarJS (data : JVal) : Except String ValidationResult :=
  match data with
  | .null =>
    .error "TypeError: Cannot read properties of null (reading inputParameters)"
  | .undefined =>
    .error "TypeError: Cannot read properties of undefined (reading inputParameters)"
  | _ => .ok (validateSidecar data)

/-! ## Module resolver (source lines 338, 447-512)

Strings of the resolver are modelled as `List Char` so that the JS
`String.prototype.split` semantics can be reasoned about by list induction. -/

/-- Resolver-side strings. -/
abbrev Str := List Char

/-- `jsSplitAux sep s = (first, rest)`: the segment before the first `sep`
and the remaining segments. -/
def jsSplitAux (sep : Char) : Str → Str × List Str
  | [] => ([], [])
  | c :: cs =>
    let r := jsSplitAux sep cs
    if c = sep then ([], r.1 :: r.2) else (c :: r.1, r.2)

/-- JS `s.split(sep)` for a single-character separator: always returns at
least one (possibly empty) segment. -/
def jsSplit (sep : Char) (s : Str) : List Str :=
  (jsSplitAux sep s).1 :: (jsSplitAux sep s).2

/-- Node `path.join` on already-normalized segments: empty segments are
dropped, the rest are joined with `/` (no `..`/`.` resolution is modelled;
the resolver only joins plain segments). -/
def pathJoin (parts : List Str) : Str :=
  List.intercalate ['/'] (parts.filter fun p => ¬ p.isEmpty)

/-- What executing a module file's text does, abstracting
`vm.runInContext` (source lines 498-510): arbitrary JavaScript is out of
scope, so a module either throws during its own top-level execution or
leaves an exported value in `module.exports` / `exports`. -/
inductive ModuleBehavior where
  | throwsErr (msg : Str) : ModuleBehavior
  | exportsVal (v : JVal) : ModuleBehavior
deriving Repr

/-- The local module tree: resolved local path to file behavior.
`fs.existsSync` is membership, `readFileSync` + execution is the behavior. -/
abbrev ModuleFS := List (Str × ModuleBehavior)

/-- The process-wide `moduleCache` (source line 338) plus a ghost log of the
local paths whose code was actually executed, in order — the observation the
spec's module-load-counter test would make. -/
structure ResolverState where
  cache : List (Str × JVal)
  execLog : List Str
deriving Repr

/-- Source lines 463-472: identifier parsing and local-path computation of
`geeRequire` (split on `:`, last `/`-segment of the repo path, join under
the module root, append `.js` unless already present). -/
def resolveLocalPath (root : Str) (importPath : Str) : Str :=
  let parts := jsSplit ':' importPath
  let repoPath := parts.headD []
  let internalPath := (parts.getD 1 [])
  let repoName := (jsSplit '/' repoPath).getLastD []
  let base := pathJoin [root, repoName, internalPath]
  if ".js".data.isSuffixOf base then base else base ++ ".js".data

/-- Source line 475 error message (`Module not found: ...`). -/
def notFoundMsg (localPath importPath : Str) : Str :=
  "Module not found: ".data ++ localPath ++
    "\n  ← Required from GEE path: ".data ++ importPath

/-- Source line 509 error message (`Failed to load module ...`). -/
def failedMsg (localPath msg : Str) : Str :=
  "Failed to load module ".data ++ localPath ++ ": ".data ++ msg

/-- Outcome of one `geeRequire` call. -/
inductive RequireResult where
  /-- The module's exported value (cache hit or fresh execution). -/
  | ok (v : JVal) : RequireResult
  /-- Non-`users/` identifier, delegated to the host `require`. -/
  | hostRequire (p : Str) : RequireResult
  /-- The `MODULE_NOT_FOUND` error of source lines 474-478. -/
  | moduleNotFound (msg : Str) : RequireResult
  /-- The wrapped module-execution error of source line 509. -/
  | loadFailed (msg : Str) : RequireResult
deriving Repr

/-- Whether a require call resolved to an exported value. -/
def RequireResult.isOk : RequireResult → Bool
  | .ok _ => true
  | _ => false

/-- `geeRequire` (source lines 450-511): delegate non-`users/` paths to the
host loader; return a cache hit unchanged; otherwise compute the local path,
fail with `MODULE_NOT_FOUND` if the file is absent, execute it (recorded in
`execLog`), wrap a top-level throw without touching the cache, and cache a
successful execution's exported value under the verbatim identifier. -/
def geeRequire (root : Str) (fs : ModuleFS) (importPath : Str) (st : ResolverState) :
    RequireResult × ResolverState :=
  if ¬ ("users/".data.isPrefixOf importPath) then (.hostRequire importPath, st)
  else
    match assocFind importPath st.cache with
    | some v => (.ok v, st)
    | none =>
      let localPath := resolveLocalPath root importPath
      match assocFind localPath fs with
      | none => (.moduleNotFound (notFoundMsg localPath importPath), st)
      | some (.throwsErr m) =>
        (.loadFailed (failedMsg localPath m),
          { st with execLog := st.execLog ++ [localPath] })
      | some (.exportsVal v) =>
        (.ok v,
          { cache := st.cache ++ [(importPath, v)],
            execLog := st.execLog ++ [localPath] })

/-! ## Experiment orchestration (source lines 673-810, 816-867)

`runExperiment` is modelled stage by stage; everything behind the Earth
Engine client (authentication callback outcomes, initialization, the caller
script's own execution) is abstracted into an environment record, since
those are external black boxes per the spec's scope. -/

/-- Per-experiment environment: the parsed sidecar (`none` = unreadable or
malformed JSON, source lines 686-693), local file-existence facts, and the
abstracted outcomes of the remote stages. -/
structure ExpEnv where
  sidecar : Option JVal
  scriptExists : Bool
  keyExists : Bool
  authOk : Bool
  initOk : Bool
  /-- `some msg`: the caller script's execution threw (source lines 796-800). -/
  execThrows : Option String
  /-- Export tasks recorded during a successful execution (source line 794). -/
  tasksSubmitted : Nat
deriving Repr

/-- Observable outcome of `runExperiment`: the `success` flag of the result
object, its `dryRun` field (source line 734), and a ghost flag recording
whether `ee.data.authenticateViaPrivateKey` was invoked. -/
structure ExpResult where
  success : Bool
  dryRun : Bool
  authAttempted : Bool
deriving Repr, DecidableEq

/-- `runExperiment` (source lines 673-810), stage for stage, on the inputs
where its promise resolves: load+parse (686-693), validate (697-703),
caller-script existence check (725-728), dry-run early return (731-735),
key-file check (741-748), authenticate (753), initialize (756), execute
(761-800).  Logging is console-only and omitted.  The one input class on
which the source's promise *rejects* instead — a sidecar parsing to a
nullish bundle crashing the unguarded `validateSidecar` call at line 697 —
is modelled by `runExperimentJS` below. -/
def runExperiment (cfgDryRun : Bool) (env : ExpEnv) : ExpResult :=
  match env.sidecar with
  | none => { success := false, dryRun := false, authAttempted := false }
  | some data =>
    let validation := validateSidecar data
    if validation.errors.length > 0 then
      { success := false, dryRun := false, authAttempted := false }
    else if ¬ env.scriptExists then
      { success := false, dryRun := false, authAttempted := false }
    else if cfgDryRun then
      { success := true, dryRun := true, authAttempted := false }
    else if ¬ env.keyExists then
      { success := false, dryRun := false, authAttempted := false }
    else if ¬ env.authOk then
      { success := false, dryRun := false, authAttempted := true }
    else if ¬ env.initOk then
      { success := false, dryRun := false, authAttempted := true }
    else
      match env.execThrows with
      | some _ => { success := false, dryRun := false, authAttempted := true }
      | none => { success := true, dryRun := false, authAttempted := true }

/-- `runExperiment` as the source actually executes it: a parse failure is
caught (lines 690-693) and resolves to a failure result, but a sidecar
that parses to a nullish bundle makes the `validateSidecar` call at line
697 — outside any try/catch — throw, which rejects the async function's
promise.  Every other path resolves to the stage model above. -/
def runExperimentJS (cfgDryRun : Bool) (env : ExpEnv) : Except String ExpResult :=
  match env.sidecar with
  | none => .ok (runExperiment cfgDryRun env)
  | some data =>
    match validateSidecarJS data with
    | .error e => .error e
    | .ok _ => .ok (runExperiment cfgDryRun env)

/-- Node `path.basename` for the slash-free-suffix case used in `runBatch`. -/
def basename (p : Str) : Str := (jsSplit '/' p).getLastD []

/-- The batch loop body (source lines 834-848): run each experiment in
order, record `(basename file, result, resolver state at experiment start)`,
apply the experiment's module-loading effect `eff` to the resolver state,
then `moduleCache.clear()` before the next file. -/
def runBatchLoop (cfgDryRun : Bool) (benv : Str → ExpEnv)
    (eff : Str → ResolverState → ResolverState) :
    List Str → ResolverState → List (Str × ExpResult × ResolverState)
  | [], _ => []
  | f :: rest, st =>
    (basename f, runExperiment cfgDryRun (benv f), st) ::
      runBatchLoop cfgDryRun benv eff rest { cache := [], execLog := (eff f st).execLog }

/-- Source lines 820-822: the experiment files of a batch — the `*.json`
entries of the directory listing, joined under the directory. -/
def batchFiles (dirListing : List Str) (dir : Str) : List Str :=
  (dirListing.filter fun f => ".json".data.isSuffixOf f).map fun f => pathJoin [dir, f]

/-- `runBatch` (source lines 816-867): list the directory, keep `*.json`
files, abort (`none`) when there are none (source lines 824-827), otherwise
run every file sequentially through the loop. -/
def runBatch (cfgDryRun : Bool) (dirListing : List Str) (dir : Str)
    (benv : Str → ExpEnv) (eff : Str → ResolverState → ResolverState)
    (st : ResolverState) : Option (List (Str × ExpResult × ResolverState)) :=
  if (batchFiles dirListing dir).isEmpty then none
  else some (runBatchLoop cfgDryRun benv eff (batchFiles dirListing dir) st)

/-- The batch loop as the source actually executes it: each experiment is
`await`ed (line 840), so a rejected promise — an experiment whose sidecar
parses to a nullish bundle — re-throws inside `runBatch`, escapes it, and
the top-level catch (lines 902-906) exits the process: later files never
run and no per-file results survive. -/
def runBatchLoopJS (cfgDryRun : Bool) (benv : Str → ExpEnv)
    (eff : Str → ResolverState → ResolverState) :
    List Str → ResolverState → Except String (List (Str × ExpResult × ResolverState))
  | [], _ => .ok []
  | f :: rest, st =>
    match runExperimentJS cfgDryRun (benv f) with
    | .error e => .error e
    | .ok r =>
      match runBatchLoopJS cfgDryRun benv eff rest
          { cache := [], execLog := (eff f st).execLog } with
      | .error e => .error e
      | .ok rs => .ok ((basename f, r, st) :: rs)

/-- `runBatch` with the rejection path: `.ok none` when there is no
`*.json` file (source lines 824-827), `.error` when some experiment's
promise rejects and aborts the whole batch, `.ok (some results)` when
every experiment resolves. -/
def runBatchJS (cfgDryRun : Bool) (dirListing : List Str) (dir : Str)
    (benv : Str → ExpEnv) (eff : Str → ResolverState → ResolverState)
    (st : ResolverState) :
    Except String (Option (List (Str × ExpResult × ResolverState))) :=
  if (batchFiles dirListing dir).isEmpty then .ok none
  else (runBatchLoopJS cfgDryRun benv eff (batchFiles dirListing dir) st).map some

/-! ## Geometry reconstruction (source lines 522-554)

`reconstructGeometries` mutates the parameter bundle in place and the spec's
claims are about reference identity (aliasing), so the bundle is modelled as
an object heap: primitive values are immediate, objects are addresses into
the heap.  `ee.Geometry.Polygon` is an external constructor; its result is
modelled as a freshly allocated heap object tagged `geometry` that records
the constructor arguments. -/

/-- Heap addresses (JS object identities). -/
abbrev Addr := Nat

/-- A JS value in the heap model: primitives immediate, objects by
reference. -/
inductive HVal where
  | undefined : HVal
  | null : HVal
  | bool (b : Bool) : HVal
  | num (q : ℚ) : HVal
  | str (s : String) : HVal
  | ref (a : Addr) : HVal
deriving Repr, DecidableEq

/-- Object kind: plain JSON object/array vs a constructed `ee.Geometry`. -/
inductive HKind where
  | plain : HKind
  | geometry : HKind
deriving Repr, DecidableEq

/-- A heap object: kind plus named fields. -/
structure HObj where
  kind : HKind
  fields : List (String × HVal)
deriving Repr, DecidableEq

/-- The object heap: allocated objects plus the next fresh address. -/
structure Heap where
  objs : List (Addr × HObj)
  next : Addr
deriving Repr, DecidableEq

/-- Every allocated address is below `next` (fresh addresses are fresh). -/
def Heap.WF (h : Heap) : Prop := ∀ p ∈ h.objs, p.1 < h.next

/-- Look up an object. -/
def Heap.getObj (h : Heap) (a : Addr) : Option HObj := assocFind a h.objs

/-- JS truthiness on heap values (objects are always truthy). -/
def HVal.truthy : HVal → Bool
  | .undefined => false
  | .null => false
  | .bool b => b
  | .num q => decide (q ≠ 0)
  | .str s => decide (s ≠ "")
  | .ref _ => true

/-- Property read `v[k]` in the heap model; `undefined` for non-objects and
missing keys (used only behind the source's truthiness / `?.` guards). -/
def hget (h : Heap) (v : HVal) (k : String) : HVal :=
  match v with
  | .ref a =>
    match h.getObj a with
    | some o => (assocFind k o.fields).getD .undefined
    | none => .undefined
  | _ => .undefined

/-- Replace the binding of `k` (or append it). -/
def setField (k : String) (v : HVal) : List (String × HVal) → List (String × HVal)
  | [] => [(k, v)]
  | p :: rest => if k = p.1 then (k, v) :: rest else p :: setField k v rest

/-- Update one object's field. -/
def Heap.setObjField (h : Heap) (a : Addr) (k : String) (v : HVal) : Heap :=
  { h with objs := h.objs.map fun p =>
      if p.1 = a then (p.1, { p.2 with fields := setField k v p.2.fields }) else p }

/-- Property write `tgt[k] = v`: mutates the referenced object; a silent
no-op on primitives (non-strict JS; the source only writes behind guards
that exclude `null`/`undefined` receivers). -/
def hset (h : Heap) (tgt : HVal) (k : String) (v : HVal) : Heap :=
  match tgt with
  | .ref a => h.setObjField a k v
  | _ => h

/-- `ee.Geometry.Polygon(coords, proj, geodesic)` (external constructor):
allocates a fresh `geometry` object recording its arguments and returns the
reference to it. -/
def eeGeometryPolygon (h : Heap) (coords proj geodesic : HVal) : HVal × Heap :=
  (.ref h.next,
    { objs := h.objs ++
        [(h.next, { kind := .geometry,
                    fields := [("coordinates", coords), ("proj", proj),
                               ("geodesic", geodesic)] })],
      next := h.next + 1 })

/-- Source lines 528-535: build `ip.defaultStudyArea` from
`ip.defaultStudyAreaCoordinates` when present (geodesic flag defaults to
`false` when `undefined`). -/
def reconstructDefaultStudyArea (ip : HVal) (h : Heap) : Heap :=
  if (hget h ip "defaultStudyAreaCoordinates").truthy then
    let gflag :=
      if hget h ip "defaultStudyAreaGeodesic" ≠ HVal.undefined then
        hget h ip "defaultStudyAreaGeodesic"
      else HVal.bool false
    let alloc := eeGeometryPolygon h (hget h ip "defaultStudyAreaCoordinates") .null gflag
    hset alloc.2 ip "defaultStudyArea" alloc.1
  else h

/-- Source lines 539-551: one iteration of the sensor loop.  Builds the
sensor's AOI from its own `AOICoordinates` when present; otherwise, when a
truthy `ip.defaultStudyArea` exists and the sensor has
`expectationCollectionParameters`, assigns that same default geometry value
(the reference itself, not a copy) as the sensor's AOI. -/
def reconstructSensorAOI (sensor : String) (ip : HVal) (h : Heap) : Heap :=
  let sd := hget h ip sensor
  let ecp := hget h sd "expectationCollectionParameters"
  let aoc := hget h ecp "AOICoordinates"
  if aoc.truthy then
    let alloc := eeGeometryPolygon h aoc .null (.bool false)
    hset alloc.2 ecp "AOI" alloc.1
  else if (hget h ip "defaultStudyArea").truthy ∧ ecp.truthy then
    hset h ecp "AOI" (hget h ip "defaultStudyArea")
  else h

/-- `reconstructGeometries` (source lines 522-554): returns the very bundle
value it was given; early exit when `params.inputParameters` is falsy, else
default-study-area phase followed by the `L8dictionary`, `S2dictionary`
sensor loop, all mutating the heap in place. -/
def reconstructGeometries (params : HVal) (h : Heap) : HVal × Heap :=
  if ¬ (hget h params "inputParameters").truthy then (params, h)
  else
    let ip := hget h params "inputParameters"
    let h1 := reconstructDefaultStudyArea ip h
    let h2 := reconstructSensorAOI "L8dictionary" ip h1
    let h3 := reconstructSensorAOI "S2dictionary" ip h2
    (params, h3)

/-! ## Validator lemmas -/

/-- The error list of `validateSidecar`, unfolded: the section/required-key
pass followed by the `binCuts` type check — the only two error sources. -/
theorem validateSidecar_errors (data : JVal) :
    (validateSidecar data).errors =
      (SECTION_NAMES.flatMap fun sec =>
        if ¬ (data.get sec).truthy then [missingSectionMsg sec]
        else (REQUIRED_KEYS sec).filterMap fun key =>
          if ((data.get sec).get key).isUndefined then some (missingKeyMsg sec key) else none) ++
      (if (data.get "inputParameters").truthy ∧
          ((data.get "inputParameters").get "binCuts").truthy ∧
          ¬ ((data.get "inputParameters").get "binCuts").isArray then
        [binCutsErrorMsg]
      else []) := rfl

/-- `isValid` is literally `errors.length == 0` (source line 331). -/
theorem validateSidecar_isValid (data : JVal) :
    (validateSidecar data).isValid = ((validateSidecar data).errors.length == 0) := rfl

theorem mem_REQUIRED_PAIRS {sec key : String} :
    (sec, key) ∈ REQUIRED_PAIRS ↔ sec ∈ SECTION_NAMES ∧ key ∈ REQUIRED_KEYS sec := by
  constructor
  · intro h
    simp only [REQUIRED_PAIRS, List.mem_flatMap, List.mem_map] at h
    obtain ⟨s, hs, k, hk, heq⟩ := h
    cases heq
    exact ⟨hs, hk⟩
  · rintro ⟨hs, hk⟩
    simp only [REQUIRED_PAIRS, List.mem_flatMap, List.mem_map]
    exact ⟨sec, hs, key, hk, rfl⟩

/-- Every string in the error list is a missing-section message, a
missing-key message (whose section was truthy and whose key was
`undefined`), or the `binCuts` type error. -/
theorem mem_validateSidecar_errors {data : JVal} {x : String}
    (hx : x ∈ (validateSidecar data).errors) :
    (∃ sec ∈ SECTION_NAMES, x = missingSectionMsg sec ∧ (data.get sec).truthy = false) ∨
    (∃ sec ∈ SECTION_NAMES, ∃ key ∈ REQUIRED_KEYS sec,
      x = missingKeyMsg sec key ∧ (data.get sec).truthy = true ∧
        ((data.get sec).get key).isUndefined = true) ∨
    x = binCutsErrorMsg := by
  rw [validateSidecar_errors] at hx
  rcases List.mem_append.mp hx with h | h
  · obtain ⟨sec, hsec, hin⟩ := List.mem_flatMap.mp h
    by_cases ht : (data.get sec).truthy
    · right; left
      rw [if_neg (by simpa using ht)] at hin
      obtain ⟨key, hkey, hcond⟩ := List.mem_filterMap.mp hin
      by_cases hu : ((data.get sec).get key).isUndefined
      · rw [if_pos hu] at hcond
        exact ⟨sec, hsec, key, hkey, (Option.some.inj hcond).symm, ht, hu⟩
      · rw [if_neg hu] at hcond
        exact absurd hcond (by simp)
    · left
      rw [if_pos (by simpa using ht)] at hin
      exact ⟨sec, hsec, List.mem_singleton.mp hin, by simpa using ht⟩
  · right; right
    by_cases hc : (data.get "inputParameters").truthy ∧
        ((data.get "inputParameters").get "binCuts").truthy ∧
        ¬ ((data.get "inputParameters").get "binCuts").isArray
    · rw [if_pos hc] at h
      exact List.mem_singleton.mp h
    · rw [if_neg hc] at h
      exact absurd h (List.not_mem_nil x)

/-- Distinct (section, key) pairs yield distinct missing-key messages. -/
theorem missingKeyMsg_pairwise_distinct :
    ∀ p ∈ REQUIRED_PAIRS, ∀ p' ∈ REQUIRED_PAIRS, p ≠ p' →
      missingKeyMsg p.1 p.2 ≠ missingKeyMsg p'.1 p'.2 := by decide

/-- A missing-key message is never a missing-section message. -/
theorem missingKeyMsg_ne_sectionMsg :
    ∀ p ∈ REQUIRED_PAIRS, ∀ s ∈ SECTION_NAMES,
      missingKeyMsg p.1 p.2 ≠ missingSectionMsg s := by decide

/-- A missing-key message is never the `binCuts` type error. -/
theorem missingKeyMsg_ne_binCutsMsg :
    ∀ p ∈ REQUIRED_PAIRS, missingKeyMsg p.1 p.2 ≠ binCutsErrorMsg := by decide

/-- Nonempty errors force `isValid = false`. -/
theorem isValid_false_of_mem {data : JVal} {x : String}
    (hx : x ∈ (validateSidecar data).errors) : (validateSidecar data).isValid = false := by
  rw [validateSidecar_isValid]
  have hne : (validateSidecar data).errors ≠ [] := List.ne_nil_of_mem hx
  simpa [Nat.beq_eq_true_eq, List.length_eq_zero] using hne

/-! ## Concrete parameter bundles for witnesses and counterexamples -/

/-- A fully valid bundle: every §6 required key present with valid types. -/
def goodBundle : JVal := .obj [
  ("inputParameters", .obj [
    ("whichReduction", .str "median"),
    ("bandName_reduction", .str "NDVI"),
    ("bandNameToFit", .str "NDVI"),
    ("binCuts", .arr [.num 0, .num 1]),
    ("modalityDictionary", .obj [
      ("bimodal", .bool true), ("constant", .bool false), ("linear", .bool false),
      ("trimodal", .bool false), ("unimodal", .bool false)])]),
  ("analysisParameters", .obj [
    ("changeThreshold", .num (2/5)),
    ("dropThresholdToDenoteChange", .num (1/2)),
    ("gainThresholdToDenoteChange", .num (3/10))]),
  ("advancedParameters", .obj [
    ("initializationApproach", .str "First"),
    ("transitionCreationMethod", .str "Manual")])]

/-- `goodBundle` with arbitrary extra unknown fields sprinkled in every
section and at top level. -/
def extraFieldsBundle : JVal := .obj [
  ("inputParameters", .obj [
    ("whichReduction", .str "median"),
    ("bandName_reduction", .str "NDVI"),
    ("bandNameToFit", .str "NDVI"),
    ("binCuts", .arr [.num 0, .num 1]),
    ("modalityDictionary", .obj [
      ("bimodal", .bool true), ("constant", .bool false), ("linear", .bool false),
      ("trimodal", .bool false), ("unimodal", .bool false)]),
    ("someUnknownKnob", .num 7),
    ("anotherExtra", .obj [("nested", .bool true)])]),
  ("analysisParameters", .obj [
    ("changeThreshold", .num (2/5)),
    ("dropThresholdToDenoteChange", .num (1/2)),
    ("gainThresholdToDenoteChange", .num (3/10)),
    ("mysteryThreshold", .num 42)]),
  ("advancedParameters", .obj [
    ("initializationApproach", .str "First"),
    ("transitionCreationMethod", .str "Manual"),
    ("extraSwitch", .bool false)]),
  ("totallyUnknownSection", .arr [.str "ignored"])]

/-- `goodBundle` with `whichReduction` removed from `inputParameters`. -/
def missingKeyBundle : JVal := .obj [
  ("inputParameters", .obj [
    ("bandName_reduction", .str "NDVI"),
    ("bandNameToFit", .str "NDVI"),
    ("binCuts", .arr [.num 0, .num 1]),
    ("modalityDictionary", .obj [
      ("bimodal", .bool true), ("constant", .bool false), ("linear", .bool false),
      ("trimodal", .bool false), ("unimodal", .bool false)])]),
  ("analysisParameters", .obj [
    ("changeThreshold", .num (2/5)),
    ("dropThresholdToDenoteChange", .num (1/2)),
    ("gainThresholdToDenoteChange", .num (3/10))]),
  ("advancedParameters", .obj [
    ("initializationApproach", .str "First"),
    ("transitionCreationMethod", .str "Manual")])]

/-- `goodBundle` with `binCuts` set to the single number `0`: present
(not `undefined`), not a sequence, but falsy. -/
def binCutsZeroBundle : JVal := .obj [
  ("inputParameters", .obj [
    ("whichReduction", .str "median"),
    ("bandName_reduction", .str "NDVI"),
    ("bandNameToFit", .str "NDVI"),
    ("binCuts", .num 0),
    ("modalityDictionary", .obj [
      ("bimodal", .bool true), ("constant", .bool false), ("linear", .bool false),
      ("trimodal", .bool false), ("unimodal", .bool false)])]),
  ("analysisParameters", .obj [
    ("changeThreshold", .num (2/5)),
    ("dropThresholdToDenoteChange", .num (1/2)),
    ("gainThresholdToDenoteChange", .num (3/10))]),
  ("advancedParameters", .obj [
    ("initializationApproach", .str "First"),
    ("transitionCreationMethod", .str "Manual")])]

/-- `goodBundle` with `binCuts` set to the single (truthy) number `5`. -/
def binCutsFiveBundle : JVal := .obj [
  ("inputParameters", .obj [
    ("whichReduction", .str "median"),
    ("bandName_reduction", .str "NDVI"),
    ("bandNameToFit", .str "NDVI"),
    ("binCuts", .num 5),
    ("modalityDictionary", .obj [
      ("bimodal", .bool true), ("constant", .bool false), ("linear", .bool false),
      ("trimodal", .bool false), ("unimodal", .bool false)])]),
  ("analysisParameters", .obj [
    ("changeThreshold", .num (2/5)),
    ("dropThresholdToDenoteChange", .num (1/2)),
    ("gainThresholdToDenoteChange", .num (3/10))]),
  ("advancedParameters", .obj [
    ("initializationApproach", .str "First"),
    ("transitionCreationMethod", .str "Manual")])]

/-! ## Claim C1 -/

/-- C1: (a) a required §6 key that is `undefined` while its section is
present yields the error naming exactly that section and key, and
`isValid` is `false`; (b) a bundle whose three sections are present, whose
required keys are all defined, and whose `binCuts` is an array (the only
hard type rule among the required keys) is valid — the universal
quantification over `data` places no restriction on extra unknown fields,
so validity holds regardless of them (no unknown-key rejection). -/
theorem C1_required_key_validation :
    (∀ (data : JVal) (sec key : String), (sec, key) ∈ REQUIRED_PAIRS →
      (data.get sec).truthy = true → ((data.get sec).get key).isUndefined = true →
      missingKeyMsg sec key ∈ (validateSidecar data).errors ∧
        (validateSidecar data).isValid = false) ∧
    (∀ data : JVal,
      (∀ sec ∈ SECTION_NAMES, (data.get sec).truthy = true) →
      (∀ p ∈ REQUIRED_PAIRS, ((data.get p.1).get p.2).isUndefined = false) →
      ((data.get "inputParameters").get "binCuts").isArray = true →
      (validateSidecar data).isValid = true) := by
  constructor
  · intro data sec key hpair ht hu
    obtain ⟨hsec, hkey⟩ := mem_REQUIRED_PAIRS.mp hpair
    have hmem : missingKeyMsg sec key ∈ (validateSidecar data).errors := by
      rw [validateSidecar_errors]
      refine List.mem_append.mpr (Or.inl ?_)
      refine List.mem_flatMap.mpr ⟨sec, hsec, ?_⟩
      rw [if_neg (by simp [ht])]
      exact List.mem_filterMap.mpr ⟨key, hkey, by rw [if_pos hu]⟩
    exact ⟨hmem, isValid_false_of_mem hmem⟩
  · intro data hsec hkeys harr
    have herr : (validateSidecar data).errors = [] := by
      rw [validateSidecar_errors]
      rw [List.append_eq_nil]
      constructor
      · apply List.flatMap_eq_nil_iff.mpr
        intro sec hs
        rw [if_neg (by simp [hsec sec hs])]
        apply List.filterMap_eq_nil_iff.mpr
        intro key hk
        rw [if_neg (by simp [hkeys (sec, key) (mem_REQUIRED_PAIRS.mpr ⟨hs, hk⟩)])]
      · rw [if_neg (by simp [harr])]
    rw [validateSidecar_isValid, herr]
    rfl

/-- Witness for C1: dropping `whichReduction` from an otherwise valid
bundle triggers the exact missing-key error and invalidity; the bundle
with extra unknown fields everywhere is valid. -/
theorem C1_witness :
    (missingKeyMsg "inputParameters" "whichReduction" ∈
        (validateSidecar missingKeyBundle).errors ∧
      (validateSidecar missingKeyBundle).isValid = false) ∧
    (validateSidecar extraFieldsBundle).isValid = true :=
  ⟨C1_required_key_validation.1 missingKeyBundle "inputParameters" "whichReduction"
      (by decide) (by decide) (by decide),
    C1_required_key_validation.2 extraFieldsBundle (by decide) (by decide) (by decide)⟩

/-! ## Claim C7 -/

/-- C7 counterexample: the claim is refuted at the input bundle JSON
`null` (reachable from `JSON.parse` of a sidecar file containing the
literal `null`): the unguarded `data[section]` access at source line 262
throws a `TypeError` instead of returning an `{errors, warnings, isValid}`
result reporting the structural absence — `validateSidecar` is not total
over every input bundle. -/
theorem C7_counterexample :
    validateSidecarJS .null =
      .error "TypeError: Cannot read properties of null (reading inputParameters)" ∧
    ∀ r, validateSidecarJS .null ≠ .ok r := by
  exact ⟨rfl, fun r h => by simp [validateSidecarJS] at h⟩

/-- C7 (amended): for every *non-nullish* input bundle — any JSON value
other than `null`, including bundles with missing sections or values of
unexpected types — `validateSidecar` returns an `{errors, warnings,
isValid}` result without throwing (all remaining property accesses are
boxed or guarded) and without side effects; `isValid` is `true` exactly
when the error list is empty, and a structurally absent (falsy) section is
itself reported as an error rather than crashing the checks.  A bundle
that is JSON `null` instead makes the unguarded `data[section]` access of
line 262 throw a `TypeError`. -/
theorem C7_validator_total :
    ∀ data : JVal, data ≠ .null → data ≠ .undefined →
      validateSidecarJS data = .ok (validateSidecar data) ∧
      ((validateSidecar data).isValid = true ↔ (validateSidecar data).errors = []) ∧
      (∀ sec ∈ SECTION_NAMES, (data.get sec).truthy = false →
        missingSectionMsg sec ∈ (validateSidecar data).errors) := by
  intro data hnull hundef
  refine ⟨?_, ?_, ?_⟩
  · cases data with
    | null => exact absurd rfl hnull
    | undefined => exact absurd rfl hundef
    | bool b => rfl
    | num q => rfl
    | str s => rfl
    | arr elems => rfl
    | obj fields => rfl
  · rw [validateSidecar_isValid]
    simp [Nat.beq_eq_true_eq, List.length_eq_zero]
  · intro sec hs ht
    rw [validateSidecar_errors]
    refine List.mem_append.mpr (Or.inl ?_)
    refine List.mem_flatMap.mpr ⟨sec, hs, ?_⟩
    rw [if_pos (by simp [ht])]
    exact List.mem_singleton.mpr rfl

/-- Witness for the amended C7 at a bundle whose sections are all absent:
no throw, and the absences are reported as errors. -/
theorem C7_witness :
    (validateSidecarJS (.obj []) = .ok (validateSidecar (.obj [])) ∧
      ((validateSidecar (.obj [])).isValid = true ↔
        (validateSidecar (.obj [])).errors = []) ∧
      (∀ sec ∈ SECTION_NAMES, ((JVal.obj []).get sec).truthy = false →
        missingSectionMsg sec ∈ (validateSidecar (.obj [])).errors)) ∧
    missingSectionMsg "inputParameters" ∈ (validateSidecar (.obj [])).errors :=
  ⟨C7_validator_total (.obj []) (fun h => nomatch h) (fun h => nomatch h),
    (C7_validator_total (.obj []) (fun h => nomatch h) (fun h => nomatch h)).2.2
      "inputParameters" (by decide) (by decide)⟩

/-! ## Claim C8 -/

/-- C8 counterexample: `binCuts` set to the single number `0` is present
(not `undefined`) and is not a sequence, yet `validateSidecar` reports no
error at all — the error list is empty (so no error mentions `binCuts`)
and `isValid` is `true`, contradicting the claim at this input.  The
source's type check is guarded by JS truthiness (`ip.binCuts && ...`,
line 280), so falsy present values (`0`, `null`, `false`, `""`) skip it. -/
theorem C8_counterexample :
    ((binCutsZeroBundle.get "inputParameters").get "binCuts").isUndefined = false ∧
    ((binCutsZeroBundle.get "inputParameters").get "binCuts").isArray = false ∧
    (validateSidecar binCutsZeroBundle).errors = [] ∧
    (validateSidecar binCutsZeroBundle).isValid = true := by decide

/-- C8 amended: for every bundle whose `inputParameters.binCuts` is present
and *truthy* but not an array, `validateSidecar` returns the hard error
`inputParameters.binCuts must be an array` (whose text mentions `binCuts`)
and `isValid` is `false`. -/
theorem C8_binCuts_truthy_nonarray :
    ∀ data : JVal,
      (data.get "inputParameters").truthy = true →
      ((data.get "inputParameters").get "binCuts").truthy = true →
      ((data.get "inputParameters").get "binCuts").isArray = false →
      binCutsErrorMsg ∈ (validateSidecar data).errors ∧
        "binCuts".data <:+: binCutsErrorMsg.data ∧
        (validateSidecar data).isValid = false := by
  intro data hip hbc harr
  have hmem : binCutsErrorMsg ∈ (validateSidecar data).errors := by
    rw [validateSidecar_errors]
    refine List.mem_append.mpr (Or.inr ?_)
    rw [if_pos ⟨hip, hbc, by simp [harr]⟩]
    exact List.mem_singleton.mpr rfl
  exact ⟨hmem, ⟨"inputParameters.".data, " must be an array".data, by decide⟩,
    isValid_false_of_mem hmem⟩

/-- Witness for the amended C8: `binCuts` as the truthy number `5`. -/
theorem C8_witness :
    binCutsErrorMsg ∈ (validateSidecar binCutsFiveBundle).errors ∧
      "binCuts".data <:+: binCutsErrorMsg.data ∧
      (validateSidecar binCutsFiveBundle).isValid = false :=
  C8_binCuts_truthy_nonarray binCutsFiveBundle (by decide) (by decide) (by decide)

/-! ## Claim C10 -/

/-- C10: (a) a top-level section whose value is falsy (`null`, `0`,
`false`, `""` — or absent, which reads as `undefined`) produces the
missing-section hard error and none of that section's missing-key errors
(the key checks are skipped); (b) an individual required key whose value is
anything other than `undefined` (including `null`, `0`, `false`) produces
no missing-key error for that key. -/
theorem C10_falsy_section_vs_key_presence :
    (∀ (data : JVal) (sec : String), sec ∈ SECTION_NAMES →
      (data.get sec).truthy = false →
      missingSectionMsg sec ∈ (validateSidecar data).errors ∧
      (validateSidecar data).isValid = false ∧
      (∀ key ∈ REQUIRED_KEYS sec, missingKeyMsg sec key ∉ (validateSidecar data).errors)) ∧
    (∀ (data : JVal) (sec key : String), (sec, key) ∈ REQUIRED_PAIRS →
      ((data.get sec).get key).isUndefined = false →
      missingKeyMsg sec key ∉ (validateSidecar data).errors) := by
  constructor
  · intro data sec hs ht
    have hmem : missingSectionMsg sec ∈ (validateSidecar data).errors := by
      rw [validateSidecar_errors]
      refine List.mem_append.mpr (Or.inl ?_)
      refine List.mem_flatMap.mpr ⟨sec, hs, ?_⟩
      rw [if_pos (by simp [ht])]
      exact List.mem_singleton.mpr rfl
    refine ⟨hmem, isValid_false_of_mem hmem, ?_⟩
    intro key hk hmem'
    rcases mem_validateSidecar_errors hmem' with ⟨s, hs', heq, _⟩ | ⟨s, hs', k, hk', heq, ht', _⟩ | heq
    · exact missingKeyMsg_ne_sectionMsg (sec, key)
        (mem_REQUIRED_PAIRS.mpr ⟨hs, hk⟩) s hs' heq
    · by_cases hpp : (sec, key) = (s, k)
      · simp only [Prod.mk.injEq] at hpp
        obtain ⟨rfl, rfl⟩ := hpp
        rw [ht'] at ht
        exact absurd ht (by simp)
      · exact missingKeyMsg_pairwise_distinct (sec, key)
          (mem_REQUIRED_PAIRS.mpr ⟨hs, hk⟩) (s, k)
          (mem_REQUIRED_PAIRS.mpr ⟨hs', hk'⟩) hpp heq
    · exact missingKeyMsg_ne_binCutsMsg (sec, key)
        (mem_REQUIRED_PAIRS.mpr ⟨hs, hk⟩) heq
  · intro data sec key hpair hu hmem
    obtain ⟨hs, hk⟩ := mem_REQUIRED_PAIRS.mp hpair
    rcases mem_validateSidecar_errors hmem with ⟨s, hs', heq, _⟩ | ⟨s, hs', k, hk', heq, _, hu'⟩ | heq
    · exact missingKeyMsg_ne_sectionMsg (sec, key) hpair s hs' heq
    · by_cases hpp : (sec, key) = (s, k)
      · simp only [Prod.mk.injEq] at hpp
        obtain ⟨rfl, rfl⟩ := hpp
        rw [hu'] at hu
        exact absurd hu (by simp)
      · exact missingKeyMsg_pairwise_distinct (sec, key) hpair (s, k)
          (mem_REQUIRED_PAIRS.mpr ⟨hs', hk'⟩) hpp heq
    · exact missingKeyMsg_ne_binCutsMsg (sec, key) hpair heq

/-- Witness for C10: `inputParameters` set to `null` (present but falsy)
gives the missing-section error and no missing-key error; a required key
set to `null` counts as present. -/
theorem C10_witness :
    (missingSectionMsg "inputParameters" ∈
        (validateSidecar (.obj [("inputParameters", .null)])).errors ∧
      (validateSidecar (.obj [("inputParameters", .null)])).isValid = false ∧
      (∀ key ∈ REQUIRED_KEYS "inputParameters",
        missingKeyMsg "inputParameters" key ∉
          (validateSidecar (.obj [("inputParameters", .null)])).errors)) ∧
    missingKeyMsg "analysisParameters" "changeThreshold" ∉
      (validateSidecar (.obj [("analysisParameters",
        .obj [("changeThreshold", .null)])])).errors :=
  ⟨C10_falsy_section_vs_key_presence.1 (.obj [("inputParameters", .null)])
      "inputParameters" (by decide) (by decide),
    C10_falsy_section_vs_key_presence.2
      (.obj [("analysisParameters", .obj [("changeThreshold", .null)])])
      "analysisParameters" "changeThreshold" (by decide) (by decide)⟩

/-! ## Claim C4 -/

/-- C4: with the dry-run option, a bundle with zero validation errors makes
`runExperiment` return the successful dry-run result with no authentication
(and hence no remote call) ever attempted — the dry-run branch (source
lines 731-735) returns before the key-file/authenticate/initialize chain.
(The caller-script existence check of lines 725-728 is a local `fs` check
that precedes the dry-run branch, so an existing caller script is part of a
proper invocation and assumed.) -/
theorem C4_dry_run_stops_before_auth :
    ∀ (env : ExpEnv) (data : JVal),
      env.sidecar = some data →
      (validateSidecar data).errors = [] →
      env.scriptExists = true →
      runExperiment true env =
        { success := true, dryRun := true, authAttempted := false } := by
  intro env data hs he hscript
  unfold runExperiment
  rw [hs]
  simp [he, hscript]

/-- Witness for C4: a valid bundle, dry-run, with *no* credential key and
failing remote stages — still a success with no authentication attempt. -/
theorem C4_witness :
    runExperiment true
      { sidecar := some goodBundle, scriptExists := true, keyExists := false,
        authOk := false, initOk := false, execThrows := none, tasksSubmitted := 0 } =
      { success := true, dryRun := true, authAttempted := false } :=
  C4_dry_run_stops_before_auth _ goodBundle rfl (by decide) rfl

/-! ## Claim C5 -/

/-- The batch loop produces, file for file and in order, exactly the result
of running that file's experiment — independent of every other file. -/
theorem runBatchLoop_projection (cfgDryRun : Bool) (benv : Str → ExpEnv)
    (eff : Str → ResolverState → ResolverState) :
    ∀ (files : List Str) (st : ResolverState),
      (runBatchLoop cfgDryRun benv eff files st).map (fun r => (r.1, r.2.1)) =
        files.map fun f => (basename f, runExperiment cfgDryRun (benv f)) := by
  intro files
  induction files with
  | nil => intro st; rfl
  | cons f rest ih =>
    intro st
    simp only [runBatchLoop, List.map_cons, ih]

/-- A nullish-free sidecar makes `validateSidecarJS` resolve to the total
model's result. -/
theorem validateSidecarJS_eq_ok (d : JVal) (hnull : d ≠ .null)
    (hundef : d ≠ .undefined) :
    validateSidecarJS d = .ok (validateSidecar d) := by
  cases d with
  | null => exact absurd rfl hnull
  | undefined => exact absurd rfl hundef
  | bool b => rfl
  | num q => rfl
  | str s => rfl
  | arr elems => rfl
  | obj fields => rfl

/-- With no nullish sidecar, the experiment's promise resolves to the
stage model's result. -/
theorem runExperimentJS_eq_ok (cfgDryRun : Bool) (env : ExpEnv)
    (h : ∀ d, env.sidecar = some d → d ≠ .null ∧ d ≠ .undefined) :
    runExperimentJS cfgDryRun env = .ok (runExperiment cfgDryRun env) := by
  unfold runExperimentJS
  cases hs : env.sidecar with
  | none => rfl
  | some d => simp [validateSidecarJS_eq_ok d (h d hs).1 (h d hs).2]

/-- With no nullish sidecar in the batch, the loop resolves every
experiment and delivers the per-file result list. -/
theorem runBatchLoopJS_eq_ok (cfgDryRun : Bool) (benv : Str → ExpEnv)
    (eff : Str → ResolverState → ResolverState) :
    ∀ (files : List Str) (st : ResolverState),
      (∀ f ∈ files, ∀ d, (benv f).sidecar = some d →
        d ≠ .null ∧ d ≠ .undefined) →
      runBatchLoopJS cfgDryRun benv eff files st =
        .ok (runBatchLoop cfgDryRun benv eff files st) := by
  intro files
  induction files with
  | nil => intro st _; rfl
  | cons f rest ih =>
    intro st h
    simp only [runBatchLoopJS, runBatchLoop]
    rw [runExperimentJS_eq_ok cfgDryRun (benv f) (h f (List.mem_cons_self _ _)),
      ih _ fun g hg => h g (List.mem_cons_of_mem _ hg)]

/-- Batch environment for the C5 counterexample: `good.json` parses to the
valid bundle, `null.json` parses to JSON `null`. -/
def batchEnvNull : Str → ExpEnv := fun f =>
  if f = "exps/good.json".data then
    { sidecar := some goodBundle, scriptExists := true, keyExists := true,
      authOk := true, initOk := true, execThrows := none, tasksSubmitted := 2 }
  else
    { sidecar := some .null, scriptExists := true, keyExists := true,
      authOk := true, initOk := true, execThrows := none, tasksSubmitted := 0 }

/-- C5 counterexample: a directory with two `*.json` files, one a valid
bundle and one containing the JSON literal `null`.  The `null` sidecar
parses fine (so it is not the caught malformed-JSON case), the unguarded
`validateSidecar` call at line 697 throws, the rejection escapes
`runBatch`'s `await` (line 840) and the top-level catch exits the process:
the batch aborts with *no* per-file results, refuting "one experiment's
failure never aborts the batch" and "exactly one pass/fail result per
file". -/
theorem C5_counterexample :
    (batchFiles ["good.json".data, "null.json".data] "exps".data).length = 2 ∧
    (validateSidecar goodBundle).isValid = true ∧
    runBatchJS false ["good.json".data, "null.json".data] "exps".data
        batchEnvNull (fun _ s => s) ⟨[], []⟩ =
      .error "TypeError: Cannot read properties of null (reading inputParameters)" :=
  ⟨by decide, by decide, rfl⟩

/-- C5 (amended): in batch mode over a listing with at least one `*.json`
file, provided no sidecar parses to a nullish bundle (the unhandled
validator-crash case, which rejects the experiment's promise and aborts
the entire process), every experiment's promise resolves and the batch
produces exactly one pass/fail result per file, in directory order, each
equal to `runExperiment` of that file alone — so one experiment's
*handled* failure never aborts the batch or changes another file's
outcome.  (The loop of source lines 834-848 `await`s each experiment
before starting the next; sequentiality is built into the fold order.) -/
theorem C5_batch_one_result_per_file :
    ∀ (cfgDryRun : Bool) (dirListing : List Str) (dir : Str) (benv : Str → ExpEnv)
      (eff : Str → ResolverState → ResolverState) (st : ResolverState),
      batchFiles dirListing dir ≠ [] →
      (∀ f ∈ batchFiles dirListing dir, ∀ d, (benv f).sidecar = some d →
        d ≠ .null ∧ d ≠ .undefined) →
      ∃ results,
        runBatchJS cfgDryRun dirListing dir benv eff st = .ok (some results) ∧
        results.map (fun r => (r.1, r.2.1)) =
          (batchFiles dirListing dir).map
            (fun f => (basename f, runExperiment cfgDryRun (benv f))) := by
  intro cfgDryRun dirListing dir benv eff st hne hok
  refine ⟨runBatchLoop cfgDryRun benv eff (batchFiles dirListing dir) st, ?_, ?_⟩
  · unfold runBatchJS
    rw [if_neg (by simpa [List.isEmpty_iff] using hne),
      runBatchLoopJS_eq_ok cfgDryRun benv eff _ st hok]
    rfl
  · exact runBatchLoop_projection cfgDryRun benv eff (batchFiles dirListing dir) st

/-- Batch witness environment: `good.json` parses to the valid bundle,
`bad.json` to a schema-invalid one (all three sections missing). -/
def batchEnvWitness : Str → ExpEnv := fun f =>
  if f = "exps/good.json".data then
    { sidecar := some goodBundle, scriptExists := true, keyExists := true,
      authOk := true, initOk := true, execThrows := none, tasksSubmitted := 2 }
  else
    { sidecar := some (.obj []), scriptExists := true, keyExists := true,
      authOk := true, initOk := true, execThrows := none, tasksSubmitted := 0 }

/-- Witness for the amended C5: a directory with one valid and one
schema-invalid (but non-null) JSON file yields one result per file — and
evaluating them gives exactly one pass and one failure, both files
processed. -/
theorem C5_witness :
    (∃ results,
      runBatchJS false ["good.json".data, "bad.json".data] "exps".data
          batchEnvWitness (fun _ s => s) ⟨[], []⟩ = .ok (some results) ∧
        results.map (fun r => (r.1, r.2.1)) =
          (batchFiles ["good.json".data, "bad.json".data] "exps".data).map
            (fun f => (basename f, runExperiment false (batchEnvWitness f)))) ∧
    ((runBatch false ["good.json".data, "bad.json".data] "exps".data batchEnvWitness
        (fun _ s => s) ⟨[], []⟩).getD []).map (fun r => r.2.1.success) = [true, false] :=
  ⟨C5_batch_one_result_per_file false ["good.json".data, "bad.json".data] "exps".data
      batchEnvWitness (fun _ s => s) ⟨[], []⟩ (by decide)
      (by
        intro f hf d hd
        by_cases hgood : f = "exps/good.json".data
        · have hside : (batchEnvWitness f).sidecar = some goodBundle := by
            simp [batchEnvWitness, hgood]
          rw [hside] at hd
          obtain rfl := Option.some.inj hd
          exact ⟨(fun h => nomatch h), (fun h => nomatch h)⟩
        · have hside : (batchEnvWitness f).sidecar = some (.obj []) := by
            simp [batchEnvWitness, hgood]
          rw [hside] at hd
          obtain rfl := Option.some.inj hd
          exact ⟨(fun h => nomatch h), (fun h => nomatch h)⟩),
    by decide⟩

/-! ## Resolver lemmas: JS `split` on list-of-char strings -/

theorem jsSplit_ne_nil (sep : Char) (s : Str) : jsSplit sep s ≠ [] := by
  simp [jsSplit]

/-- Splitting a concatenation at an explicit separator splits both halves. -/
theorem jsSplitAux_append_sep (sep : Char) (A B : Str) :
    jsSplitAux sep (A ++ sep :: B) =
      ((jsSplitAux sep A).1, (jsSplitAux sep A).2 ++ jsSplit sep B) := by
  induction A with
  | nil => simp [jsSplitAux, jsSplit]
  | cons c A ih =>
    by_cases hc : c = sep <;>
      simp [jsSplitAux, hc, ih, jsSplit, List.cons_append]

theorem jsSplit_append_sep (sep : Char) (A B : Str) :
    jsSplit sep (A ++ sep :: B) = jsSplit sep A ++ jsSplit sep B := by
  simp [jsSplit, jsSplitAux_append_sep]

theorem jsSplitAux_no_sep (sep : Char) (A : Str) (h : sep ∉ A) :
    jsSplitAux sep A = (A, []) := by
  induction A with
  | nil => rfl
  | cons c A ih =>
    simp only [jsSplitAux, ih (fun hm => h (List.mem_cons_of_mem _ hm))]
    rw [if_neg fun hc => h (by simp [hc])]

/-- A separator-free string splits into itself alone. -/
theorem jsSplit_no_sep (sep : Char) (A : Str) (h : sep ∉ A) :
    jsSplit sep A = [A] := by
  simp [jsSplit, jsSplitAux_no_sep sep A h]

theorem getLastD_default_irrel {α : Type} (Y : List α) (h : Y ≠ []) (d d' : α) :
    Y.getLastD d = Y.getLastD d' := by
  cases Y with
  | nil => exact absurd rfl h
  | cons y ys => rw [List.getLastD_cons, List.getLastD_cons]

theorem getLastD_append {α : Type} (Y : List α) (h : Y ≠ []) :
    ∀ (X : List α) (d : α), (X ++ Y).getLastD d = Y.getLastD d := by
  intro X
  induction X with
  | nil => intro d; rfl
  | cons c X ih =>
    intro d
    rw [List.cons_append, List.getLastD_cons, ih c, getLastD_default_irrel Y h c d]

theorem intercalate_three {α : Type} (sep a b c : List α) :
    List.intercalate sep [a, b, c] = a ++ sep ++ b ++ sep ++ c := by
  simp [List.intercalate, List.intersperse]

theorem assocFind_append_right {κ α : Type} [DecidableEq κ] (k : κ)
    (l₁ l₂ : List (κ × α)) (h : assocFind k l₁ = none) :
    assocFind k (l₁ ++ l₂) = assocFind k l₂ := by
  induction l₁ with
  | nil => rfl
  | cons p l₁ ih =>
    simp only [assocFind] at h ⊢
    by_cases hk : k = p.1
    · rw [if_pos hk] at h; exact absurd h (by simp)
    · rw [if_neg hk] at h ⊢; exact ih h

/-! ## Claim C2 -/

/-- The GEE import identifier shape of the claim:
`users/<account>/<repoOrFolder>:<internalPath>`. -/
def geeIdent (account repo internal : Str) : Str :=
  "users/".data ++ account ++ '/' :: repo ++ ':' :: internal

/-- The claim's expected base path
`M/<lastSegmentOfRepoOrFolder>/<internalPath>` (stated from the spec's
words, to be compared with what `resolveLocalPath` computes). -/
def expectedBase (root repo internal : Str) : Str :=
  root ++ '/' :: (jsSplit '/' repo).getLastD [] ++ '/' :: internal

/-- The claim's expected local path: the base with `.js` appended when the
path does not already end in `.js`. -/
def expectedLocalPath (root repo internal : Str) : Str :=
  if ".js".data.isSuffixOf (expectedBase root repo internal) then
    expectedBase root repo internal
  else expectedBase root repo internal ++ ".js".data

/-- The resolver's computed local path coincides with the claim's expected
path for every well-formed identifier (no stray `:`; the repo path ends in
a nonempty segment; nonempty internal path and module root). -/
theorem resolveLocalPath_eq
    (root account repo internal : Str)
    (hroot : root ≠ []) (hca : ':' ∉ account) (hcr : ':' ∉ repo)
    (hci : ':' ∉ internal) (hint : internal ≠ [])
    (hlast : (jsSplit '/' repo).getLastD [] ≠ []) :
    resolveLocalPath root (geeIdent account repo internal) =
      expectedLocalPath root repo internal := by
  have hU : (':' : Char) ∉ ("users/".data ++ (account ++ '/' :: repo)) := by
    simp only [List.mem_append, List.mem_cons]
    rintro (h | h | h | h)
    · exact absurd h (by decide)
    · exact hca h
    · exact absurd h (by decide)
    · exact hcr h
  have hieq : geeIdent account repo internal =
      ("users/".data ++ (account ++ '/' :: repo)) ++ ':' :: internal := by
    simp [geeIdent, List.append_assoc]
  have hsplit : jsSplit ':' (geeIdent account repo internal) =
      [("users/".data ++ (account ++ '/' :: repo)), internal] := by
    rw [hieq, jsSplit_append_sep, jsSplit_no_sep ':' _ hU,
      jsSplit_no_sep ':' internal hci]
    rfl
  have hrepo : (jsSplit '/' ("users/".data ++ (account ++ '/' :: repo))).getLastD [] =
      (jsSplit '/' repo).getLastD [] := by
    have hUeq : ("users/".data ++ (account ++ '/' :: repo)) =
        "users".data ++ '/' :: (account ++ '/' :: repo) := rfl
    rw [hUeq, jsSplit_append_sep, jsSplit_append_sep, ← List.append_assoc]
    exact getLastD_append _ (jsSplit_ne_nil '/' repo) _ []
  have hlast' : (jsSplit '/' repo).getLast?.getD [] ≠ [] := by
    simpa [List.getLastD_eq_getLast?] using hlast
  have hfil : pathJoin [root, (jsSplit '/' repo).getLastD [], internal] =
      expectedBase root repo internal := by
    unfold pathJoin expectedBase
    rw [show ([root, (jsSplit '/' repo).getLastD [], internal].filter
        fun p => ¬ p.isEmpty) = [root, (jsSplit '/' repo).getLastD [], internal] from by
      simp [List.filter, hroot, hlast', hint]]
    rw [intercalate_three]
    simp [List.append_assoc]
  unfold resolveLocalPath expectedLocalPath
  rw [hsplit]
  simp only [List.headD_cons, List.getD_cons_succ, List.getD_cons_zero]
  rw [hrepo, hfil]

/-- Unfolding of `geeRequire` on a `users/`-prefixed identifier that is not
in the cache: the outcome is decided by the file behavior at the computed
local path. -/
theorem geeRequire_cold (root : Str) (fs : ModuleFS) (i : Str) (st : ResolverState)
    (hpre : "users/".data.isPrefixOf i = true)
    (hmiss : assocFind i st.cache = none) :
    geeRequire root fs i st =
      match assocFind (resolveLocalPath root i) fs with
      | none => (.moduleNotFound (notFoundMsg (resolveLocalPath root i) i), st)
      | some (.throwsErr m) =>
        (.loadFailed (failedMsg (resolveLocalPath root i) m),
          { st with execLog := st.execLog ++ [resolveLocalPath root i] })
      | some (.exportsVal v) =>
        (.ok v, { cache := st.cache ++ [(i, v)],
                  execLog := st.execLog ++ [resolveLocalPath root i] }) := by
  unfold geeRequire
  rw [if_neg (by simp [hpre]), hmiss]

/-- C2 counterexample: the identifier's file exists on disk but its
top-level execution throws, so resolution fails (with the wrapped
`Failed to load module` error) although the file exists — refuting
"succeeds exactly when that file exists" as literally stated. -/
theorem C2_counterexample :
    (assocFind "M/Repo/sub/File.js".data
        [("M/Repo/sub/File.js".data,
          ModuleBehavior.throwsErr "boom".data)]).isSome = true ∧
    (geeRequire "M".data
        [("M/Repo/sub/File.js".data, ModuleBehavior.throwsErr "boom".data)]
        "users/alice/Repo:sub/File".data ⟨[], []⟩).1.isOk = false := by decide

/-- C2 (amended): resolving `users/<account>/<repoOrFolder>:<internalPath>`
against module root `M` with a cold cache requests exactly
`M/<lastSegmentOfRepoOrFolder>/<internalPath>` with `.js` appended when not
already present; when the file is absent it fails with the
`MODULE_NOT_FOUND` error whose message contains both the computed local
path and the original GEE identifier; and it succeeds exactly when that
file exists *and* its top-level execution completes without throwing. -/
theorem C2_import_resolution
    (root account repo internal : Str) (fs : ModuleFS) (st : ResolverState)
    (hroot : root ≠ []) (hca : ':' ∉ account) (hcr : ':' ∉ repo)
    (hci : ':' ∉ internal) (hint : internal ≠ [])
    (hlast : (jsSplit '/' repo).getLastD [] ≠ [])
    (hmiss : assocFind (geeIdent account repo internal) st.cache = none) :
    (assocFind (expectedLocalPath root repo internal) fs = none →
      geeRequire root fs (geeIdent account repo internal) st =
        (.moduleNotFound (notFoundMsg (expectedLocalPath root repo internal)
          (geeIdent account repo internal)), st) ∧
      expectedLocalPath root repo internal <:+:
        notFoundMsg (expectedLocalPath root repo internal) (geeIdent account repo internal) ∧
      geeIdent account repo internal <:+:
        notFoundMsg (expectedLocalPath root repo internal) (geeIdent account repo internal)) ∧
    (∀ v, assocFind (expectedLocalPath root repo internal) fs =
        some (.exportsVal v) →
      geeRequire root fs (geeIdent account repo internal) st =
        (.ok v, { cache := st.cache ++ [(geeIdent account repo internal, v)],
                  execLog := st.execLog ++ [expectedLocalPath root repo internal] })) ∧
    ((∃ v st', geeRequire root fs (geeIdent account repo internal) st = (.ok v, st')) ↔
      ∃ v, assocFind (expectedLocalPath root repo internal) fs =
        some (.exportsVal v)) := by
  have hpre : ("users/".data.isPrefixOf (geeIdent account repo internal)) = true := by
    rw [List.isPrefixOf_iff_prefix]
    exact ⟨account ++ '/' :: repo ++ ':' :: internal, rfl⟩
  have hlp := resolveLocalPath_eq root account repo internal hroot hca hcr hci hint hlast
  refine ⟨?_, ?_, ?_⟩
  · intro hfs
    refine ⟨?_, ?_, ?_⟩
    · rw [geeRequire_cold root fs _ st hpre hmiss, hlp, hfs]
    · exact ⟨"Module not found: ".data,
        "\n  ← Required from GEE path: ".data ++ geeIdent account repo internal,
        by simp [notFoundMsg, List.append_assoc]⟩
    · exact ⟨"Module not found: ".data ++ expectedLocalPath root repo internal ++
        "\n  ← Required from GEE path: ".data, [],
        by simp [notFoundMsg, List.append_assoc]⟩
  · intro v hfs
    rw [geeRequire_cold root fs _ st hpre hmiss, hlp, hfs]
  · constructor
    · rintro ⟨v, st', hrun⟩
      rw [geeRequire_cold root fs _ st hpre hmiss, hlp] at hrun
      rcases hfs : assocFind (expectedLocalPath root repo internal) fs with _ | b
      · rw [hfs] at hrun
        exact absurd hrun (by simp)
      · rcases b with m | v'
        · rw [hfs] at hrun
          exact absurd hrun (by simp)
        · exact ⟨v', rfl⟩
    · rintro ⟨v, hfs⟩
      refine ⟨v, ⟨st.cache ++ [(geeIdent account repo internal, v)],
        st.execLog ++ [expectedLocalPath root repo internal]⟩, ?_⟩
      rw [geeRequire_cold root fs _ st hpre hmiss, hlp, hfs]

/-- Witness for the amended C2: `users/alice/Repo:sub/File` against root
`M`, with the file present and exporting a value, resolves to it;
dropping the file gives the not-found error with both paths in the
message. -/
theorem C2_witness :
    (geeRequire "M".data [] "users/alice/Repo:sub/File".data ⟨[], []⟩ =
      (.moduleNotFound (notFoundMsg "M/Repo/sub/File.js".data
        "users/alice/Repo:sub/File".data), ⟨[], []⟩) ∧
      "M/Repo/sub/File.js".data <:+:
        notFoundMsg "M/Repo/sub/File.js".data "users/alice/Repo:sub/File".data ∧
      "users/alice/Repo:sub/File".data <:+:
        notFoundMsg "M/Repo/sub/File.js".data "users/alice/Repo:sub/File".data) ∧
    geeRequire "M".data
        [("M/Repo/sub/File.js".data, ModuleBehavior.exportsVal (.num 7))]
        "users/alice/Repo:sub/File".data ⟨[], []⟩ =
      (.ok (.num 7),
        { cache := [("users/alice/Repo:sub/File".data, .num 7)],
          execLog := ["M/Repo/sub/File.js".data] }) :=
  ⟨(C2_import_resolution "M".data "alice".data "Repo".data "sub/File".data
      [] ⟨[], []⟩ (by decide) (by decide) (by decide) (by decide) (by decide)
      (by decide) rfl).1 rfl,
    (C2_import_resolution "M".data "alice".data "Repo".data "sub/File".data
      [("M/Repo/sub/File.js".data, ModuleBehavior.exportsVal (.num 7))] ⟨[], []⟩
      (by decide) (by decide) (by decide) (by decide) (by decide)
      (by decide) rfl).2.1 (.num 7) rfl⟩

/-! ## Claim C3 -/

/-- Once the batch loop runs with an empty cache, every recorded
experiment-start state keeps an empty cache (the loop clears it after each
experiment, source lines 846-848). -/
theorem runBatchLoop_cleared (cfgDryRun : Bool) (benv : Str → ExpEnv)
    (eff : Str → ResolverState → ResolverState) :
    ∀ (files : List Str) (st : ResolverState), st.cache = [] →
      ∀ r ∈ runBatchLoop cfgDryRun benv eff files st, r.2.2.cache = [] := by
  intro files
  induction files with
  | nil => intro st _ r hr; simp [runBatchLoop] at hr
  | cons f rest ih =>
    intro st hst r hr
    simp only [runBatchLoop, List.mem_cons] at hr
    rcases hr with rfl | hr
    · exact hst
    · exact ih _ rfl r hr

/-- C3: the module cache behaves as claimed.
1. A cache hit returns the cached exported value with no state change (and
   hence no execution).
2. Step invariant: any single `geeRequire` call either leaves the cache
   unchanged or extends it with exactly the binding `(identifier, value)`
   of a fresh successful resolution of that verbatim identifier — so a
   cache entry exists exactly when a prior resolution of its identifier
   completed successfully.
3. A fresh successful resolution executes the module file exactly once
   (one new `execLog` entry), and resolving the same identifier again
   returns the cached value with no further execution or state change.
4. A module whose top-level execution throws yields the wrapped load
   failure and leaves no cache entry (the cache is untouched).
5. In batch mode, the cache is cleared between consecutive experiments:
   every experiment after the first starts with an empty cache. -/
theorem C3_module_cache :
    (∀ (root : Str) (fs : ModuleFS) (i : Str) (st : ResolverState) (v : JVal),
      "users/".data.isPrefixOf i = true →
      assocFind i st.cache = some v →
      geeRequire root fs i st = (.ok v, st)) ∧
    (∀ (root : Str) (fs : ModuleFS) (i : Str) (st : ResolverState)
      (r : RequireResult) (st' : ResolverState),
      geeRequire root fs i st = (r, st') →
      st'.cache = st.cache ∨
        ∃ v, r = .ok v ∧ assocFind i st.cache = none ∧
          st'.cache = st.cache ++ [(i, v)]) ∧
    (∀ (root : Str) (fs : ModuleFS) (i : Str) (st : ResolverState)
      (v : JVal) (st₁ : ResolverState),
      assocFind i st.cache = none →
      geeRequire root fs i st = (.ok v, st₁) →
      st₁.execLog = st.execLog ++ [resolveLocalPath root i] ∧
      geeRequire root fs i st₁ = (.ok v, st₁)) ∧
    (∀ (root : Str) (fs : ModuleFS) (i : Str) (st : ResolverState) (m : Str),
      "users/".data.isPrefixOf i = true →
      assocFind i st.cache = none →
      assocFind (resolveLocalPath root i) fs = some (.throwsErr m) →
      geeRequire root fs i st =
        (.loadFailed (failedMsg (resolveLocalPath root i) m),
          { st with execLog := st.execLog ++ [resolveLocalPath root i] })) ∧
    (∀ (cfgDryRun : Bool) (benv : Str → ExpEnv)
      (eff : Str → ResolverState → ResolverState)
      (files : List Str) (st : ResolverState),
      ∀ r ∈ (runBatchLoop cfgDryRun benv eff files st).tail, r.2.2.cache = []) := by
  refine ⟨?_, ?_, ?_, ?_, ?_⟩
  · intro root fs i st v hpre hhit
    unfold geeRequire
    rw [if_neg (by simp [hpre]), hhit]
  · intro root fs i st r st' hrun
    by_cases hpre : ("users/".data.isPrefixOf i) = true
    · rcases hc : assocFind i st.cache with _ | v
      · rw [geeRequire_cold root fs i st hpre hc] at hrun
        rcases hf : assocFind (resolveLocalPath root i) fs with _ | b
        · rw [hf] at hrun
          injection hrun with h1 h2
          subst h2
          exact Or.inl rfl
        · rcases b with m | v
          · rw [hf] at hrun
            injection hrun with h1 h2
            subst h2
            exact Or.inl rfl
          · rw [hf] at hrun
            simp only [Prod.mk.injEq] at hrun
            obtain ⟨rfl, rfl⟩ := hrun
            exact Or.inr ⟨v, rfl, rfl, rfl⟩
      · unfold geeRequire at hrun
        rw [if_neg (by simp [hpre]), hc] at hrun
        injection hrun with h1 h2
        subst h2
        exact Or.inl rfl
    · unfold geeRequire at hrun
      rw [if_pos (by simp [Bool.not_eq_true] at hpre; simp [hpre])] at hrun
      injection hrun with h1 h2
      subst h2
      exact Or.inl rfl
  · intro root fs i st v st₁ hmiss hrun
    by_cases hpre : ("users/".data.isPrefixOf i) = true
    · rw [geeRequire_cold root fs i st hpre hmiss] at hrun
      rcases hf : assocFind (resolveLocalPath root i) fs with _ | b
      · rw [hf] at hrun
        exact absurd hrun (by simp)
      · rcases b with m | v'
        · rw [hf] at hrun
          exact absurd hrun (by simp)
        · rw [hf] at hrun
          simp only [Prod.mk.injEq, RequireResult.ok.injEq] at hrun
          obtain ⟨rfl, rfl⟩ := hrun
          refine ⟨rfl, ?_⟩
          unfold geeRequire
          rw [if_neg (by simp [hpre]), assocFind_append_right _ _ _ hmiss]
          simp [assocFind]
    · unfold geeRequire at hrun
      rw [if_pos (by simp [Bool.not_eq_true] at hpre; simp [hpre])] at hrun
      exact absurd hrun (by simp)
  · intro root fs i st m hpre hmiss hf
    rw [geeRequire_cold root fs i st hpre hmiss, hf]
  · intro cfgDryRun benv eff files st
    cases files with
    | nil => intro r hr; simp [runBatchLoop] at hr
    | cons f rest =>
      intro r hr
      simp only [runBatchLoop, List.tail_cons] at hr
      exact runBatchLoop_cleared cfgDryRun benv eff rest _ rfl r hr

/-- Witness for C3: a concrete module tree under root `mods` with a clean
module `Lib` and a throwing module `Bad`; cache hit, fresh resolution,
double resolution, throwing module, and a two-file batch. -/
theorem C3_witness :
    (geeRequire "mods".data
        [("mods/M/Lib.js".data, ModuleBehavior.exportsVal (.num 3))]
        "users/u/M:Lib".data ⟨[("users/u/M:Lib".data, .num 3)], []⟩ =
      (.ok (.num 3), ⟨[("users/u/M:Lib".data, .num 3)], []⟩)) ∧
    ((⟨[("users/u/M:Lib".data, .num 3)], ["mods/M/Lib.js".data]⟩ :
        ResolverState).cache = (⟨[], []⟩ : ResolverState).cache ∨
      ∃ v, (RequireResult.ok (JVal.num 3)) = .ok v ∧
        assocFind "users/u/M:Lib".data ((⟨[], []⟩ : ResolverState).cache) = none ∧
        (⟨[("users/u/M:Lib".data, .num 3)], ["mods/M/Lib.js".data]⟩ :
          ResolverState).cache = (⟨[], []⟩ : ResolverState).cache ++
            [("users/u/M:Lib".data, v)]) ∧
    ((⟨[("users/u/M:Lib".data, .num 3)], ["mods/M/Lib.js".data]⟩ :
        ResolverState).execLog = (⟨[], []⟩ : ResolverState).execLog ++
          [resolveLocalPath "mods".data "users/u/M:Lib".data] ∧
      geeRequire "mods".data
        [("mods/M/Lib.js".data, ModuleBehavior.exportsVal (.num 3))]
        "users/u/M:Lib".data
        ⟨[("users/u/M:Lib".data, .num 3)], ["mods/M/Lib.js".data]⟩ =
      (.ok (.num 3),
        ⟨[("users/u/M:Lib".data, .num 3)], ["mods/M/Lib.js".data]⟩)) ∧
    (geeRequire "mods".data
        [("mods/M/Bad.js".data, ModuleBehavior.throwsErr "oops".data)]
        "users/u/M:Bad".data ⟨[], []⟩ =
      (.loadFailed (failedMsg "mods/M/Bad.js".data "oops".data),
        ⟨[], ["mods/M/Bad.js".data]⟩)) ∧
    (∀ r ∈ (runBatchLoop false batchEnvWitness
        (fun _ s => ⟨s.cache ++ [("users/u/M:Lib".data, .num 3)], s.execLog⟩)
        ["exps/good.json".data, "exps/bad.json".data]
        ⟨[], []⟩).tail, r.2.2.cache = []) :=
  ⟨C3_module_cache.1 "mods".data _ "users/u/M:Lib".data _ (.num 3) (by decide) rfl,
    C3_module_cache.2.1 "mods".data
      [("mods/M/Lib.js".data, ModuleBehavior.exportsVal (.num 3))]
      "users/u/M:Lib".data ⟨[], []⟩ (.ok (.num 3))
      ⟨[("users/u/M:Lib".data, .num 3)], ["mods/M/Lib.js".data]⟩ rfl,
    C3_module_cache.2.2.1 "mods".data
      [("mods/M/Lib.js".data, ModuleBehavior.exportsVal (.num 3))]
      "users/u/M:Lib".data ⟨[], []⟩ (.num 3)
      ⟨[("users/u/M:Lib".data, .num 3)], ["mods/M/Lib.js".data]⟩ rfl rfl,
    C3_module_cache.2.2.2.1 "mods".data
      [("mods/M/Bad.js".data, ModuleBehavior.throwsErr "oops".data)]
      "users/u/M:Bad".data ⟨[], []⟩ "oops".data (by decide) rfl rfl,
    C3_module_cache.2.2.2.2 false batchEnvWitness
      (fun _ s => ⟨s.cache ++ [("users/u/M:Lib".data, .num 3)], s.execLog⟩)
      ["exps/good.json".data, "exps/bad.json".data] ⟨[], []⟩⟩

/-! ## Heap lemmas -/

theorem assocFind_append_left {κ α : Type} [DecidableEq κ] (k : κ)
    (l₁ l₂ : List (κ × α)) (v : α) (h : assocFind k l₁ = some v) :
    assocFind k (l₁ ++ l₂) = some v := by
  induction l₁ with
  | nil => exact absurd h (by simp [assocFind])
  | cons p l₁ ih =>
    simp only [assocFind, List.cons_append] at h ⊢
    by_cases hk : k = p.1
    · rwa [if_pos hk] at h ⊢
    · rw [if_neg hk] at h ⊢
      exact ih h

theorem assocFind_eq_none {κ α : Type} [DecidableEq κ] (k : κ) :
    ∀ l : List (κ × α), (∀ p ∈ l, p.1 ≠ k) → assocFind k l = none := by
  intro l
  induction l with
  | nil => intro _; rfl
  | cons p rest ih =>
    intro h
    simp only [assocFind]
    rw [if_neg fun he => h p (List.mem_cons_self _ _) he.symm]
    exact ih fun q hq => h q (List.mem_cons_of_mem _ hq)

theorem assocFind_mem {κ α : Type} [DecidableEq κ] {k : κ} {v : α} :
    ∀ {l : List (κ × α)}, assocFind k l = some v → (k, v) ∈ l := by
  intro l
  induction l with
  | nil => intro h; exact absurd h (by simp [assocFind])
  | cons p rest ih =>
    intro h
    simp only [assocFind] at h
    by_cases hk : k = p.1
    · rw [if_pos hk] at h
      obtain rfl := Option.some.inj h
      exact hk ▸ List.mem_cons_self _ _
    · rw [if_neg hk] at h
      exact List.mem_cons_of_mem _ (ih h)

theorem assocFind_setField_same (k : String) (v : HVal) :
    ∀ fields, assocFind k (setField k v fields) = some v := by
  intro fields
  induction fields with
  | nil => simp [setField, assocFind]
  | cons p rest ih =>
    simp only [setField]
    by_cases hk : k = p.1
    · rw [if_pos hk]
      simp [assocFind]
    · rw [if_neg hk]
      simp only [assocFind]
      rw [if_neg hk]
      exact ih

theorem assocFind_setField_ne (k k' : String) (v : HVal) (hk : k ≠ k') :
    ∀ fields, assocFind k (setField k' v fields) = assocFind k fields := by
  intro fields
  induction fields with
  | nil => simp [setField, assocFind, hk]
  | cons p rest ih =>
    simp only [setField]
    by_cases hp : k' = p.1
    · rw [if_pos hp]
      simp only [assocFind]
      rw [if_neg (hp ▸ hk), if_neg (hp ▸ hk)]
    · rw [if_neg hp]
      simp only [assocFind]
      by_cases hkp : k = p.1
      · rw [if_pos hkp, if_pos hkp]
      · rw [if_neg hkp, if_neg hkp]
        exact ih

theorem assocFind_update {α : Type} (a a' : Addr) (g : α → α) :
    ∀ l : List (Addr × α),
      assocFind a' (l.map fun p => if p.1 = a then (p.1, g p.2) else p) =
        if a' = a then (assocFind a' l).map g else assocFind a' l := by
  intro l
  induction l with
  | nil => by_cases h : a' = a <;> simp [assocFind, h]
  | cons p rest ih =>
    obtain ⟨pa, pv⟩ := p
    by_cases hpa : pa = a
    · subst hpa
      by_cases ha' : a' = pa
      · subst ha'
        simp [assocFind, List.map_cons]
      · simp [assocFind, List.map_cons, ha', ih]
    · by_cases ha' : a' = pa
      · subst ha'
        simp [assocFind, List.map_cons, hpa]
      · simp [assocFind, List.map_cons, ha', ih, hpa]

theorem getObj_setObjField (h : Heap) (a a' : Addr) (k : String) (v : HVal) :
    (h.setObjField a k v).getObj a' =
      if a' = a then
        (h.getObj a').map fun o => { o with fields := setField k v o.fields }
      else h.getObj a' := by
  unfold Heap.getObj Heap.setObjField
  exact assocFind_update a a'
    (fun o => { o with fields := setField k v o.fields }) h.objs

theorem hget_hset_ne_key (h : Heap) (tgt x : HVal) (k k' : String) (v : HVal)
    (hk : k ≠ k') : hget (hset h tgt k' v) x k = hget h x k := by
  cases tgt <;> try rfl
  case ref a =>
    cases x <;> try rfl
    case ref a' =>
      simp only [hset, hget, getObj_setObjField]
      by_cases ha : a' = a
      · rw [if_pos ha]
        cases hobj : h.getObj a' <;>
          simp [assocFind_setField_ne k k' v hk]
      · rw [if_neg ha]

theorem hget_hset_same (h : Heap) (a : Addr) (o : HObj) (ho : h.getObj a = some o)
    (k : String) (v : HVal) : hget (hset h (.ref a) k v) (.ref a) k = v := by
  simp only [hset, hget, getObj_setObjField, if_pos rfl, ho, Option.map_some]
  simp [assocFind_setField_same]

theorem hget_hset_ne_addr (h : Heap) (a a' : Addr) (ha : a' ≠ a) (k k' : String)
    (v : HVal) : hget (hset h (.ref a) k' v) (.ref a') k = hget h (.ref a') k := by
  simp [hset, hget, getObj_setObjField, ha]

theorem getObj_alloc_ne (h : Heap) (c p g : HVal) (a : Addr) (ha : a ≠ h.next) :
    (eeGeometryPolygon h c p g).2.getObj a = h.getObj a := by
  show assocFind a (h.objs ++ [(h.next, _)]) = assocFind a h.objs
  cases hf : assocFind a h.objs
  · rw [assocFind_append_right _ _ _ hf]
    simp [assocFind, ha]
  · exact assocFind_append_left _ _ _ _ hf

theorem getObj_next_none (h : Heap) (hwf : h.WF) : h.getObj h.next = none :=
  assocFind_eq_none _ h.objs fun q hq => Nat.ne_of_lt (hwf q hq)

theorem getObj_alloc_self (h : Heap) (c p g : HVal) (hwf : h.WF) :
    (eeGeometryPolygon h c p g).2.getObj h.next =
      some { kind := .geometry,
             fields := [("coordinates", c), ("proj", p), ("geodesic", g)] } := by
  show assocFind h.next (h.objs ++ [(h.next, _)]) = _
  rw [assocFind_append_right _ _ _ (getObj_next_none h hwf)]
  simp [assocFind]

theorem WF_hset (h : Heap) (tgt : HVal) (k : String) (v : HVal) (hwf : h.WF) :
    (hset h tgt k v).WF := by
  cases tgt <;> try exact hwf
  case ref a =>
    intro p hp
    simp only [hset, Heap.setObjField] at hp
    obtain ⟨q, hq, rfl⟩ := List.mem_map.mp hp
    have hlt := hwf q hq
    split <;> simpa using hlt

theorem WF_alloc (h : Heap) (c p g : HVal) (hwf : h.WF) :
    (eeGeometryPolygon h c p g).2.WF := by
  intro q hq
  simp only [eeGeometryPolygon, List.mem_append, List.mem_singleton] at hq
  rcases hq with hq | rfl
  · exact Nat.lt_succ_of_lt (hwf q hq)
  · exact Nat.lt_succ_self _

theorem next_hset (h : Heap) (tgt : HVal) (k : String) (v : HVal) :
    (hset h tgt k v).next = h.next := by
  cases tgt <;> rfl

theorem next_alloc (h : Heap) (c p g : HVal) :
    (eeGeometryPolygon h c p g).2.next = h.next + 1 := rfl

/-- Reads of keys other than the geometry-constructor fields are unaffected
by an allocation (the fresh address was unallocated, so reads there were
`undefined` and stay `undefined` on non-constructor keys). -/
theorem hget_alloc_frame (h : Heap) (c p g : HVal) (hwf : h.WF) (x : HVal)
    (k : String) (h1 : k ≠ "coordinates") (h2 : k ≠ "proj")
    (h3 : k ≠ "geodesic") :
    hget (eeGeometryPolygon h c p g).2 x k = hget h x k := by
  cases x <;> try rfl
  case ref a =>
    by_cases ha : a = h.next
    · subst ha
      simp only [hget, getObj_alloc_self h c p g hwf, getObj_next_none h hwf]
      simp [assocFind, h1, h2, h3]
    · simp only [hget, getObj_alloc_ne h c p g a ha]

/-- A field update never changes an object's kind, nor which addresses are
allocated. -/
theorem getObj_hset_kind (h : Heap) (tgt : HVal) (k : String) (v : HVal)
    (a : Addr) (o : HObj) (ho : h.getObj a = some o) :
    ∃ o', (hset h tgt k v).getObj a = some o' ∧ o'.kind = o.kind := by
  cases tgt <;> try exact ⟨o, ho, rfl⟩
  case ref b =>
    simp only [hset, getObj_setObjField]
    by_cases hb : a = b
    · rw [if_pos hb, ho]
      exact ⟨_, rfl, rfl⟩
    · rw [if_neg hb]
      exact ⟨o, ho, rfl⟩

theorem assocFind_none_forall {κ α : Type} [DecidableEq κ] {k : κ} :
    ∀ {l : List (κ × α)}, assocFind k l = none → ∀ p ∈ l, p.1 ≠ k := by
  intro l
  induction l with
  | nil => intro _ p hp; exact absurd hp (List.not_mem_nil p)
  | cons q rest ih =>
    intro h p hp
    simp only [assocFind] at h
    by_cases hk : k = q.1
    · rw [if_pos hk] at h
      exact absurd h (by simp)
    · rw [if_neg hk] at h
      rcases List.mem_cons.mp hp with rfl | hp
      · exact fun he => hk he.symm
      · exact ih h p hp

theorem map_update_no_key {α : Type} (a : Addr) (g : Addr × α → Addr × α) :
    ∀ l : List (Addr × α), (∀ p ∈ l, p.1 ≠ a) →
      (l.map fun p => if p.1 = a then g p else p) = l := by
  intro l
  induction l with
  | nil => intro _; rfl
  | cons p rest ih =>
    intro hp
    simp only [List.map_cons]
    rw [if_neg (hp p (List.mem_cons_self _ _)),
      ih fun q hq => hp q (List.mem_cons_of_mem _ hq)]

theorem setObjField_not_found (h : Heap) (a : Addr) (k : String) (v : HVal)
    (ha : h.getObj a = none) : h.setObjField a k v = h := by
  unfold Heap.setObjField
  rw [map_update_no_key a _ h.objs (assocFind_none_forall ha)]

/-- Default-study-area phase, coordinates present (source lines 528-535). -/
theorem reconstructDefaultStudyArea_pos (ip : HVal) (h : Heap)
    (hc : (hget h ip "defaultStudyAreaCoordinates").truthy = true) :
    reconstructDefaultStudyArea ip h =
      hset (eeGeometryPolygon h (hget h ip "defaultStudyAreaCoordinates") .null
        (if hget h ip "defaultStudyAreaGeodesic" ≠ HVal.undefined then
          hget h ip "defaultStudyAreaGeodesic" else HVal.bool false)).2
        ip "defaultStudyArea" (.ref h.next) := by
  simp only [reconstructDefaultStudyArea]
  rw [if_pos hc]
  rfl

/-- Default-study-area phase, coordinates absent or falsy: no effect. -/
theorem reconstructDefaultStudyArea_neg (ip : HVal) (h : Heap)
    (hc : (hget h ip "defaultStudyAreaCoordinates").truthy = false) :
    reconstructDefaultStudyArea ip h = h := by
  simp only [reconstructDefaultStudyArea]
  rw [if_neg (by simp [hc])]

/-- Sensor phase, own AOI coordinates present (source lines 540-546). -/
theorem reconstructSensorAOI_own (s : String) (ip : HVal) (h : Heap)
    (haoc : (hget h (hget h (hget h ip s) "expectationCollectionParameters")
      "AOICoordinates").truthy = true) :
    reconstructSensorAOI s ip h =
      hset (eeGeometryPolygon h
          (hget h (hget h (hget h ip s) "expectationCollectionParameters")
            "AOICoordinates") .null (.bool false)).2
        (hget h (hget h ip s) "expectationCollectionParameters") "AOI"
        (.ref h.next) := by
  simp only [reconstructSensorAOI]
  rw [if_pos haoc]
  rfl

/-- Sensor phase, fallback to the default study area (source lines 547-550). -/
theorem reconstructSensorAOI_fallback (s : String) (ip : HVal) (h : Heap)
    (haoc : (hget h (hget h (hget h ip s) "expectationCollectionParameters")
      "AOICoordinates").truthy = false)
    (hdsa : (hget h ip "defaultStudyArea").truthy = true)
    (hecp : (hget h (hget h ip s) "expectationCollectionParameters").truthy = true) :
    reconstructSensorAOI s ip h =
      hset h (hget h (hget h ip s) "expectationCollectionParameters") "AOI"
        (hget h ip "defaultStudyArea") := by
  simp only [reconstructSensorAOI]
  rw [if_neg (by simp [haoc]), if_pos ⟨hdsa, hecp⟩]

/-- Sensor phase, neither branch applies: no effect. -/
theorem reconstructSensorAOI_skip (s : String) (ip : HVal) (h : Heap)
    (haoc : (hget h (hget h (hget h ip s) "expectationCollectionParameters")
      "AOICoordinates").truthy = false)
    (hskip : (hget h ip "defaultStudyArea").truthy = false ∨
      (hget h (hget h ip s) "expectationCollectionParameters").truthy = false) :
    reconstructSensorAOI s ip h = h := by
  simp only [reconstructSensorAOI]
  rw [if_neg (by simp [haoc]), if_neg (by rcases hskip with hs | hs <;> simp [hs])]

/-- One sensor iteration only writes `AOI` fields and fresh geometry
objects: reads of other keys are unchanged, well-formedness is kept, every
allocated object keeps its kind, and `next` never decreases. -/
theorem reconstructSensorAOI_frame (s : String) (ip : HVal) (h : Heap)
    (hwf : h.WF) :
    (∀ (x : HVal) (k : String), k ≠ "AOI" → k ≠ "coordinates" → k ≠ "proj" →
      k ≠ "geodesic" →
      hget (reconstructSensorAOI s ip h) x k = hget h x k) ∧
    (reconstructSensorAOI s ip h).WF ∧
    (∀ (a : Addr) (o : HObj), h.getObj a = some o →
      ∃ o', (reconstructSensorAOI s ip h).getObj a = some o' ∧ o'.kind = o.kind) ∧
    h.next ≤ (reconstructSensorAOI s ip h).next := by
  by_cases haoc : (hget h (hget h (hget h ip s) "expectationCollectionParameters")
      "AOICoordinates").truthy = true
  · rw [reconstructSensorAOI_own s ip h haoc]
    refine ⟨?_, ?_, ?_, ?_⟩
    · intro x k hk h1 h2 h3
      rw [hget_hset_ne_key _ _ _ _ _ _ hk]
      exact hget_alloc_frame h _ _ _ hwf x k h1 h2 h3
    · exact WF_hset _ _ _ _ (WF_alloc _ _ _ _ hwf)
    · intro a o ho
      have ha : a ≠ h.next := Nat.ne_of_lt (hwf _ (assocFind_mem ho))
      have ho2 : (eeGeometryPolygon h
          (hget h (hget h (hget h ip s) "expectationCollectionParameters")
            "AOICoordinates") .null (.bool false)).2.getObj a = some o := by
        rw [getObj_alloc_ne _ _ _ _ a ha]; exact ho
      exact getObj_hset_kind _ _ _ _ a o ho2
    · rw [next_hset, next_alloc]
      exact Nat.le_succ _
  · have haoc' : (hget h (hget h (hget h ip s) "expectationCollectionParameters")
        "AOICoordinates").truthy = false := by simpa using haoc
    by_cases hcond : ((hget h ip "defaultStudyArea").truthy = true) ∧
        ((hget h (hget h ip s) "expectationCollectionParameters").truthy = true)
    · rw [reconstructSensorAOI_fallback s ip h haoc' hcond.1 hcond.2]
      exact ⟨fun x k hk _ _ _ => hget_hset_ne_key _ _ _ _ _ _ hk,
        WF_hset _ _ _ _ hwf,
        fun a o ho => getObj_hset_kind _ _ _ _ a o ho,
        le_of_eq (next_hset _ _ _ _).symm⟩
    · have hskip : (hget h ip "defaultStudyArea").truthy = false ∨
          (hget h (hget h ip s) "expectationCollectionParameters").truthy = false := by
        by_cases h1 : (hget h ip "defaultStudyArea").truthy = true
        · right
          by_cases h2 : (hget h (hget h ip s)
              "expectationCollectionParameters").truthy = true
          · exact absurd ⟨h1, h2⟩ hcond
          · simpa using h2
        · left; simpa using h1
      rw [reconstructSensorAOI_skip s ip h haoc' hskip]
      exact ⟨fun _ _ _ _ _ _ => rfl, hwf, fun a o ho => ⟨o, ho, rfl⟩, le_refl _⟩

/-- If an object's `AOI` already holds the default-geometry reference and
`ip.defaultStudyArea` holds that same reference, a later sensor iteration
cannot change that `AOI` to anything else: it either skips, overwrites with
the same reference, or writes a different object. -/
theorem reconstructSensorAOI_aoi_stable (s : String) (ip : HVal) (h : Heap)
    (hwf : h.WF) (e n : Addr)
    (hAOI : hget h (.ref e) "AOI" = .ref n)
    (hdsa : hget h ip "defaultStudyArea" = .ref n)
    (hsame : hget h (hget h ip s) "expectationCollectionParameters" = .ref e →
      (hget h (.ref e) "AOICoordinates").truthy = false) :
    hget (reconstructSensorAOI s ip h) (.ref e) "AOI" = .ref n := by
  by_cases haoc : (hget h (hget h (hget h ip s) "expectationCollectionParameters")
      "AOICoordinates").truthy = true
  · rw [reconstructSensorAOI_own s ip h haoc]
    rcases hecp : hget h (hget h ip s) "expectationCollectionParameters" with
      _ | _ | b | q | sv | e'
    · rw [hecp] at haoc; exact absurd haoc (by simp [hget, HVal.truthy])
    · rw [hecp] at haoc; exact absurd haoc (by simp [hget, HVal.truthy])
    · rw [hecp] at haoc; exact absurd haoc (by simp [hget, HVal.truthy])
    · rw [hecp] at haoc; exact absurd haoc (by simp [hget, HVal.truthy])
    · rw [hecp] at haoc; exact absurd haoc (by simp [hget, HVal.truthy])
    · by_cases hee : e' = e
      · subst hee
        rw [hecp] at haoc
        exact absurd haoc (by simp [hsame hecp])
      · rw [hget_hset_ne_addr _ e' e (fun hh => hee hh.symm)]
        rw [hget_alloc_frame h _ _ _ hwf (.ref e) "AOI"
          (by decide) (by decide) (by decide)]
        exact hAOI
  · have haoc' : (hget h (hget h (hget h ip s) "expectationCollectionParameters")
        "AOICoordinates").truthy = false := by simpa using haoc
    by_cases hcond : ((hget h ip "defaultStudyArea").truthy = true) ∧
        ((hget h (hget h ip s) "expectationCollectionParameters").truthy = true)
    · rw [reconstructSensorAOI_fallback s ip h haoc' hcond.1 hcond.2, hdsa]
      rcases hecp : hget h (hget h ip s) "expectationCollectionParameters" with
        _ | _ | b | q | sv | e'
      · exact hAOI
      · exact hAOI
      · exact hAOI
      · exact hAOI
      · exact hAOI
      · by_cases hee : e' = e
        · subst hee
          cases hoe : h.getObj e' with
          | none =>
            rw [show hset h (.ref e') "AOI" (.ref n) = h from
              setObjField_not_found h e' _ _ hoe]
            exact hAOI
          | some o => exact hget_hset_same h e' o hoe "AOI" (.ref n)
        · rw [hget_hset_ne_addr h e' e (fun hh => hee hh.symm)]
          exact hAOI
    · have hskip : (hget h ip "defaultStudyArea").truthy = false ∨
          (hget h (hget h ip s) "expectationCollectionParameters").truthy = false := by
        by_cases h1 : (hget h ip "defaultStudyArea").truthy = true
        · right
          by_cases h2 : (hget h (hget h ip s)
              "expectationCollectionParameters").truthy = true
          · exact absurd ⟨h1, h2⟩ hcond
          · simpa using h2
        · left; simpa using h1
      rw [reconstructSensorAOI_skip s ip h haoc' hskip]
      exact hAOI

/-- Core of C6, stated after the default-study-area phase: if
`ip.defaultStudyArea` holds the reference `n` to the freshly built
geometry, then running the `L8dictionary`, `S2dictionary` sensor loop makes
every sensor whose `expectationCollectionParameters` object has falsy
`AOICoordinates` hold that very same reference `n` as its `AOI`. -/
theorem two_sensor_phases (h1 : Heap) (aip n : Addr)
    (hwf1 : h1.WF)
    (f1 : hget h1 (.ref aip) "defaultStudyArea" = .ref n)
    (g1 : ∃ og, h1.getObj n = some og ∧ og.kind = HKind.geometry)
    (hsens : ∀ s ∈ (["L8dictionary", "S2dictionary"] : List String),
      hget h1 (hget h1 (.ref aip) s) "expectationCollectionParameters" = .undefined ∨
      ∃ e o, hget h1 (hget h1 (.ref aip) s) "expectationCollectionParameters" =
          .ref e ∧ h1.getObj e = some o) :
    ∀ s ∈ (["L8dictionary", "S2dictionary"] : List String), ∀ e : Addr,
      hget h1 (hget h1 (.ref aip) s) "expectationCollectionParameters" = .ref e →
      (hget h1 (.ref e) "AOICoordinates").truthy = false →
      hget (reconstructSensorAOI "S2dictionary" (.ref aip)
          (reconstructSensorAOI "L8dictionary" (.ref aip) h1)) (.ref e) "AOI" =
        .ref n ∧
      hget (reconstructSensorAOI "S2dictionary" (.ref aip)
          (reconstructSensorAOI "L8dictionary" (.ref aip) h1)) (.ref aip)
          "defaultStudyArea" = .ref n ∧
      ∃ og, (reconstructSensorAOI "S2dictionary" (.ref aip)
          (reconstructSensorAOI "L8dictionary" (.ref aip) h1)).getObj n =
          some og ∧ og.kind = HKind.geometry := by
  intro s hs e hecp haoc
  obtain ⟨og1, hog1, hk1⟩ := g1
  obtain ⟨fr8, hwf2, kind8, next8⟩ :=
    reconstructSensorAOI_frame "L8dictionary" (.ref aip) h1 hwf1
  have f2 : hget (reconstructSensorAOI "L8dictionary" (.ref aip) h1) (.ref aip)
      "defaultStudyArea" = .ref n :=
    (fr8 (.ref aip) "defaultStudyArea" (by decide) (by decide) (by decide)
      (by decide)).trans f1
  obtain ⟨og2, hog2, hk2⟩ := kind8 n og1 hog1
  obtain ⟨fr9, hwf3, kind9, next9⟩ :=
    reconstructSensorAOI_frame "S2dictionary" (.ref aip)
      (reconstructSensorAOI "L8dictionary" (.ref aip) h1) hwf2
  have f3 : hget (reconstructSensorAOI "S2dictionary" (.ref aip)
      (reconstructSensorAOI "L8dictionary" (.ref aip) h1)) (.ref aip)
      "defaultStudyArea" = .ref n :=
    (fr9 (.ref aip) "defaultStudyArea" (by decide) (by decide) (by decide)
      (by decide)).trans f2
  obtain ⟨og3, hog3, hk3⟩ := kind9 n og2 hog2
  refine ⟨?_, f3, ⟨og3, hog3, hk3.trans (hk2.trans hk1)⟩⟩
  have hmem : s = "L8dictionary" ∨ s = "S2dictionary" := by
    simpa using hs
  rcases hmem with rfl | rfl
  · -- L8: the first iteration writes the alias, the second cannot undo it
    have hobj1 : ∃ o, h1.getObj e = some o := by
      rcases hsens "L8dictionary" (by simp) with hu | ⟨e', o', hc', ho'⟩
      · rw [hu] at hecp
        exact absurd hecp (by simp)
      · rw [hc'] at hecp
        obtain rfl : e' = e := by injection hecp
        exact ⟨o', ho'⟩
    obtain ⟨o1, ho1⟩ := hobj1
    have hfall8 := reconstructSensorAOI_fallback "L8dictionary" (.ref aip) h1
      (by rw [hecp]; exact haoc) (by rw [f1]; rfl) (by rw [hecp]; rfl)
    have hAOI2 : hget (reconstructSensorAOI "L8dictionary" (.ref aip) h1)
        (.ref e) "AOI" = .ref n := by
      rw [hfall8, hecp, f1]
      exact hget_hset_same h1 e o1 ho1 "AOI" (.ref n)
    exact reconstructSensorAOI_aoi_stable "S2dictionary" (.ref aip)
      (reconstructSensorAOI "L8dictionary" (.ref aip) h1) hwf2 e n hAOI2 f2
      (fun _ => by
        rw [fr8 (.ref e) "AOICoordinates" (by decide) (by decide)
          (by decide) (by decide)]
        exact haoc)
  · -- S2: the first iteration leaves the relevant reads alone, the second
    -- iteration writes the alias
    have hchain2 : hget (reconstructSensorAOI "L8dictionary" (.ref aip) h1)
        (hget (reconstructSensorAOI "L8dictionary" (.ref aip) h1) (.ref aip)
          "S2dictionary") "expectationCollectionParameters" = .ref e := by
      rw [fr8 (.ref aip) "S2dictionary" (by decide) (by decide) (by decide)
        (by decide)]
      rw [fr8 _ "expectationCollectionParameters" (by decide) (by decide)
        (by decide) (by decide)]
      exact hecp
    have haoc2 : (hget (reconstructSensorAOI "L8dictionary" (.ref aip) h1)
        (.ref e) "AOICoordinates").truthy = false := by
      rw [fr8 (.ref e) "AOICoordinates" (by decide) (by decide) (by decide)
        (by decide)]
      exact haoc
    have hobj2 : ∃ o, (reconstructSensorAOI "L8dictionary" (.ref aip) h1).getObj e =
        some o := by
      rcases hsens "S2dictionary" (by simp) with hu | ⟨e', o', hc', ho'⟩
      · rw [hu] at hecp
        exact absurd hecp (by simp)
      · rw [hc'] at hecp
        obtain rfl : e' = e := by injection hecp
        obtain ⟨o2, ho2, _⟩ := kind8 _ o' ho'
        exact ⟨o2, ho2⟩
    obtain ⟨o2, ho2⟩ := hobj2
    have hfall9 := reconstructSensorAOI_fallback "S2dictionary" (.ref aip)
      (reconstructSensorAOI "L8dictionary" (.ref aip) h1)
      (by rw [hchain2]; exact haoc2) (by rw [f2]; rfl) (by rw [hchain2]; rfl)
    rw [hfall9, hchain2, f2]
    exact hget_hset_same _ e o2 ho2 "AOI" (.ref n)

/-- Facts established by the default-study-area phase: the freshly built
geometry sits at the old `next` address, `ip.defaultStudyArea` references
it, reads of other keys are unchanged, and existing objects keep their
kinds. -/
theorem default_phase_facts (h : Heap) (aip : Addr) (oip : HObj) (c p g : HVal)
    (hwf : h.WF) (hoipeq : h.getObj aip = some oip)
    (haipne : aip ≠ h.next) :
    (hset (eeGeometryPolygon h c p g).2 (.ref aip) "defaultStudyArea"
      (.ref h.next)).WF ∧
    hget (hset (eeGeometryPolygon h c p g).2 (.ref aip) "defaultStudyArea"
      (.ref h.next)) (.ref aip) "defaultStudyArea" = .ref h.next ∧
    (∃ og, (hset (eeGeometryPolygon h c p g).2 (.ref aip) "defaultStudyArea"
      (.ref h.next)).getObj h.next = some og ∧ og.kind = HKind.geometry) ∧
    (∀ (x : HVal) (k : String), k ≠ "defaultStudyArea" → k ≠ "coordinates" →
      k ≠ "proj" → k ≠ "geodesic" →
      hget (hset (eeGeometryPolygon h c p g).2 (.ref aip) "defaultStudyArea"
        (.ref h.next)) x k = hget h x k) ∧
    (∀ (a : Addr) (o : HObj), h.getObj a = some o →
      ∃ o', (hset (eeGeometryPolygon h c p g).2 (.ref aip) "defaultStudyArea"
        (.ref h.next)).getObj a = some o' ∧ o'.kind = o.kind) := by
  have hwfA : (eeGeometryPolygon h c p g).2.WF := WF_alloc _ _ _ _ hwf
  have hoA : (eeGeometryPolygon h c p g).2.getObj aip = some oip := by
    rw [getObj_alloc_ne _ _ _ _ _ haipne]; exact hoipeq
  refine ⟨WF_hset _ _ _ _ hwfA, hget_hset_same _ aip oip hoA _ _, ?_, ?_, ?_⟩
  · have hstep : (hset (eeGeometryPolygon h c p g).2 (.ref aip)
        "defaultStudyArea" (.ref h.next)).getObj h.next =
        (eeGeometryPolygon h c p g).2.getObj h.next := by
      show ((eeGeometryPolygon h c p g).2.setObjField aip _ _).getObj h.next = _
      rw [getObj_setObjField, if_neg (fun hh => haipne hh.symm)]
    rw [hstep, getObj_alloc_self h c p g hwf]
    exact ⟨_, rfl, rfl⟩
  · intro x k h0 hk1 hk2 hk3
    rw [hget_hset_ne_key _ _ _ _ _ _ h0]
    exact hget_alloc_frame h c p g hwf x k hk1 hk2 hk3
  · intro a o ho
    have ha : a ≠ h.next := Nat.ne_of_lt (hwf _ (assocFind_mem ho))
    have ho2 : (eeGeometryPolygon h c p g).2.getObj a = some o := by
      rw [getObj_alloc_ne _ _ _ _ _ ha]; exact ho
    exact getObj_hset_kind _ _ _ _ a o ho2

/-- C6: in every well-formed bundle heap whose `inputParameters` object has
truthy `defaultStudyAreaCoordinates` (so a default study area geometry is
built) and whose known sensor dictionaries (`L8dictionary`,
`S2dictionary`) either lack `expectationCollectionParameters` or hold it as
an allocated object, each such sensor whose
`expectationCollectionParameters` has falsy `AOICoordinates` is assigned as
its `AOI` the very same heap reference (the geometry allocated at address
`h.next`) that `inputParameters.defaultStudyArea` holds — reference
identity (shared aliasing), not a copy. -/
theorem C6_aoi_aliasing (h : Heap) (params : HVal) (aip : Addr)
    (hwf : h.WF)
    (hip : hget h params "inputParameters" = .ref aip)
    (hdsac : (hget h (.ref aip) "defaultStudyAreaCoordinates").truthy = true)
    (hsens : ∀ s ∈ (["L8dictionary", "S2dictionary"] : List String),
      hget h (hget h (.ref aip) s) "expectationCollectionParameters" = .undefined ∨
      ∃ e o, hget h (hget h (.ref aip) s) "expectationCollectionParameters" =
          .ref e ∧ h.getObj e = some o) :
    ∀ s ∈ (["L8dictionary", "S2dictionary"] : List String), ∀ e : Addr,
      hget h (hget h (.ref aip) s) "expectationCollectionParameters" = .ref e →
      (hget h (.ref e) "AOICoordinates").truthy = false →
      hget (reconstructGeometries params h).2 (.ref e) "AOI" = .ref h.next ∧
      hget (reconstructGeometries params h).2 (.ref aip) "defaultStudyArea" =
        .ref h.next ∧
      ∃ og, (reconstructGeometries params h).2.getObj h.next = some og ∧
        og.kind = HKind.geometry := by
  have hoip : ∃ oip, h.getObj aip = some oip := by
    cases ho : h.getObj aip with
    | none =>
      rw [show hget h (.ref aip) "defaultStudyAreaCoordinates" = .undefined from by
        simp [hget, ho]] at hdsac
      exact absurd hdsac (by simp [HVal.truthy])
    | some o => exact ⟨o, rfl⟩
  obtain ⟨oip, hoipeq⟩ := hoip
  have haipne : aip ≠ h.next := Nat.ne_of_lt (hwf _ (assocFind_mem hoipeq))
  have hrg : (reconstructGeometries params h).2 =
      reconstructSensorAOI "S2dictionary" (.ref aip)
        (reconstructSensorAOI "L8dictionary" (.ref aip)
          (reconstructDefaultStudyArea (.ref aip) h)) := by
    simp only [reconstructGeometries]
    rw [hip, if_neg (by simp [HVal.truthy])]
  have hD := reconstructDefaultStudyArea_pos (.ref aip) h hdsac
  obtain ⟨hwf1, f1, g1, fr1, kind1⟩ := default_phase_facts h aip oip
    (hget h (.ref aip) "defaultStudyAreaCoordinates") HVal.null
    (if hget h (.ref aip) "defaultStudyAreaGeodesic" ≠ HVal.undefined then
      hget h (.ref aip) "defaultStudyAreaGeodesic" else HVal.bool false)
    hwf hoipeq haipne
  rw [← hD] at hwf1 f1 g1 fr1 kind1
  have sensor_keys : ∀ s ∈ (["L8dictionary", "S2dictionary"] : List String),
      s ≠ "defaultStudyArea" ∧ s ≠ "coordinates" ∧ s ≠ "proj" ∧
        s ≠ "geodesic" := by
    intro s hs
    have hsmem : s = "L8dictionary" ∨ s = "S2dictionary" := by simpa using hs
    rcases hsmem with rfl | rfl
    · exact ⟨by decide, by decide, by decide, by decide⟩
    · exact ⟨by decide, by decide, by decide, by decide⟩
  have chain1 : ∀ s ∈ (["L8dictionary", "S2dictionary"] : List String),
      hget (reconstructDefaultStudyArea (.ref aip) h)
        (hget (reconstructDefaultStudyArea (.ref aip) h) (.ref aip) s)
        "expectationCollectionParameters" =
      hget h (hget h (.ref aip) s) "expectationCollectionParameters" := by
    intro s hs
    obtain ⟨k1, k2, k3, k4⟩ := sensor_keys s hs
    rw [fr1 (.ref aip) s k1 k2 k3 k4]
    exact fr1 _ "expectationCollectionParameters" (by decide) (by decide)
      (by decide) (by decide)
  have hsens1 : ∀ s ∈ (["L8dictionary", "S2dictionary"] : List String),
      hget (reconstructDefaultStudyArea (.ref aip) h)
        (hget (reconstructDefaultStudyArea (.ref aip) h) (.ref aip) s)
        "expectationCollectionParameters" = .undefined ∨
      ∃ e o, hget (reconstructDefaultStudyArea (.ref aip) h)
          (hget (reconstructDefaultStudyArea (.ref aip) h) (.ref aip) s)
          "expectationCollectionParameters" = .ref e ∧
        (reconstructDefaultStudyArea (.ref aip) h).getObj e = some o := by
    intro s hs
    rcases hsens s hs with hu | ⟨e, o, hc, ho⟩
    · exact Or.inl ((chain1 s hs).trans hu)
    · obtain ⟨o', ho', _⟩ := kind1 e o ho
      exact Or.inr ⟨e, o', (chain1 s hs).trans hc, ho'⟩
  intro s hs e hecp haoc
  have haoc1 : (hget (reconstructDefaultStudyArea (.ref aip) h) (.ref e)
      "AOICoordinates").truthy = false := by
    rw [fr1 (.ref e) "AOICoordinates" (by decide) (by decide) (by decide)
      (by decide)]
    exact haoc
  have hmain := two_sensor_phases (reconstructDefaultStudyArea (.ref aip) h)
    aip h.next hwf1 f1 g1 hsens1 s hs e ((chain1 s hs).trans hecp) haoc1
  rw [hrg]
  exact hmain

/-- Concrete bundle heap for the C6 witness: `inputParameters` at address 1
with default-study-area coordinates and two sensor dictionaries whose
(empty) `expectationCollectionParameters` objects sit at addresses 3, 5. -/
def C6heap : Heap :=
  { objs := [
      (0, ⟨.plain, [("inputParameters", .ref 1)]⟩),
      (1, ⟨.plain, [("defaultStudyAreaCoordinates", .str "ring"),
        ("L8dictionary", .ref 2), ("S2dictionary", .ref 4)]⟩),
      (2, ⟨.plain, [("expectationCollectionParameters", .ref 3)]⟩),
      (3, ⟨.plain, []⟩),
      (4, ⟨.plain, [("expectationCollectionParameters", .ref 5)]⟩),
      (5, ⟨.plain, []⟩)],
    next := 6 }

/-- Witness for C6: after reconstruction both sensors' `AOI` and
`inputParameters.defaultStudyArea` hold the same reference to the geometry
allocated at the old `next` address. -/
theorem C6_witness :
    (hget (reconstructGeometries (.ref 0) C6heap).2 (.ref 3) "AOI" =
        .ref C6heap.next ∧
      hget (reconstructGeometries (.ref 0) C6heap).2 (.ref 1)
        "defaultStudyArea" = .ref C6heap.next ∧
      ∃ og, (reconstructGeometries (.ref 0) C6heap).2.getObj C6heap.next =
        some og ∧ og.kind = HKind.geometry) ∧
    (hget (reconstructGeometries (.ref 0) C6heap).2 (.ref 5) "AOI" =
        .ref C6heap.next ∧
      hget (reconstructGeometries (.ref 0) C6heap).2 (.ref 1)
        "defaultStudyArea" = .ref C6heap.next ∧
      ∃ og, (reconstructGeometries (.ref 0) C6heap).2.getObj C6heap.next =
        some og ∧ og.kind = HKind.geometry) := by
  have happ := C6_aoi_aliasing C6heap (.ref 0) 1 (by unfold Heap.WF; decide)
    (by decide) (by decide)
    (by
      intro s hs
      have hsm : s = "L8dictionary" ∨ s = "S2dictionary" := by simpa using hs
      rcases hsm with rfl | rfl
      · exact Or.inr ⟨3, ⟨.plain, []⟩, by decide, by decide⟩
      · exact Or.inr ⟨5, ⟨.plain, []⟩, by decide, by decide⟩)
  exact ⟨happ "L8dictionary" (by simp) 3 (by decide) (by decide),
    happ "S2dictionary" (by simp) 5 (by decide) (by decide)⟩

/-! ## Claim C9 -/

/-- C9 counterexample heap: no coordinates of any kind in the bundle, but a
pre-existing truthy `defaultStudyArea` and an `L8dictionary` with an
(empty) `expectationCollectionParameters` object. -/
def C9heap : Heap :=
  { objs := [
      (0, ⟨.plain, [("inputParameters", .ref 1)]⟩),
      (1, ⟨.plain, [("defaultStudyArea", .str "x"),
        ("L8dictionary", .ref 2)]⟩),
      (2, ⟨.plain, [("expectationCollectionParameters", .ref 3)]⟩),
      (3, ⟨.plain, []⟩)],
    next := 4 }

/-- C9 counterexample: a bundle containing neither
`defaultStudyAreaCoordinates` nor any per-sensor `AOICoordinates` on which
`reconstructGeometries` is *not* the identity: the fallback of source line
549 copies the pre-existing truthy `defaultStudyArea` value into the
sensor's `AOI`, adding a field. -/
theorem C9_counterexample :
    (hget C9heap (hget C9heap (.ref 0) "inputParameters")
      "defaultStudyAreaCoordinates").truthy = false ∧
    (hget C9heap (hget C9heap (hget C9heap (hget C9heap (.ref 0)
      "inputParameters") "L8dictionary") "expectationCollectionParameters")
      "AOICoordinates").truthy = false ∧
    (hget C9heap (hget C9heap (hget C9heap (hget C9heap (.ref 0)
      "inputParameters") "S2dictionary") "expectationCollectionParameters")
      "AOICoordinates").truthy = false ∧
    (reconstructGeometries (.ref 0) C9heap).2 ≠ C9heap ∧
    hget (reconstructGeometries (.ref 0) C9heap).2 (.ref 3) "AOI" = .str "x" ∧
    hget C9heap (.ref 3) "AOI" = .undefined := by decide

/-- C9 (amended): `reconstructGeometries` always returns the very bundle
value it was given (it mutates the heap in place), and it is the complete
identity — same bundle, heap untouched — whenever the bundle contains no
`defaultStudyAreaCoordinates`, no per-sensor `AOICoordinates`, and
additionally no pre-existing truthy `inputParameters.defaultStudyArea`
(without that last condition the fallback of source line 549 can still
assign a sensor `AOI` even though no coordinates are present). -/
theorem C9_reconstruct_identity :
    (∀ (params : HVal) (h : Heap), (reconstructGeometries params h).1 = params) ∧
    (∀ (params : HVal) (h : Heap),
      (hget h (hget h params "inputParameters")
        "defaultStudyAreaCoordinates").truthy = false →
      (hget h (hget h params "inputParameters")
        "defaultStudyArea").truthy = false →
      (hget h (hget h (hget h (hget h params "inputParameters") "L8dictionary")
        "expectationCollectionParameters") "AOICoordinates").truthy = false →
      (hget h (hget h (hget h (hget h params "inputParameters") "S2dictionary")
        "expectationCollectionParameters") "AOICoordinates").truthy = false →
      reconstructGeometries params h = (params, h)) := by
  constructor
  · intro params h
    unfold reconstructGeometries
    split <;> rfl
  · intro params h hc hd h8 h9
    by_cases hip : (hget h params "inputParameters").truthy = true
    · simp only [reconstructGeometries]
      rw [if_neg (by simp [hip]), reconstructDefaultStudyArea_neg _ _ hc,
        reconstructSensorAOI_skip _ _ _ h8 (Or.inl hd),
        reconstructSensorAOI_skip _ _ _ h9 (Or.inl hd)]
    · simp only [reconstructGeometries]
      rw [if_pos hip]

/-- Witness for C9: the bundle value is returned unchanged, and a bundle
with no coordinates and no pre-existing default study area is left fully
untouched. -/
theorem C9_witness :
    (reconstructGeometries (.ref 0) C9heap).1 = .ref 0 ∧
    reconstructGeometries HVal.null ⟨[], 0⟩ = (HVal.null, ⟨[], 0⟩) :=
  ⟨C9_reconstruct_identity.1 (.ref 0) C9heap,
    C9_reconstruct_identity.2 HVal.null ⟨[], 0⟩ (by decide) (by decide)
      (by decide) (by decide)⟩

end BulcdRunner
